import Mathlib

/-!
Shallow embedding of the call-coordination core of `setu-world`
(`src/setu-world/new-pm-nexa/store.tsx`), the WebRTC signaling and media
session coordinator.

Modelling conventions:
* The React provider state plus its refs are collapsed into one record
  `St`.  Every public operation of the store runs atomically (the host
  event loop is single threaded and, between operations, the sync effect
  at store.tsx:216 makes every ref equal to its state variable), so one
  field per state/ref pair is faithful at operation granularity.  Where
  a closure captures a *stale* state value inside one operation (the
  `renegotiate` guard reads the `localStream` state variable captured at
  render time, store.tsx:1154), the stale value is passed explicitly.
* Media tracks are mutable shared objects in the browser; here a track
  is an id (`Nat`) pointing into a heap `trackHeap`, so that flipping
  `enabled` on a track is visible to every stream and sender holding it.
  A `MediaStream` is its list of track ids.
* Results of `getUserMedia` / `getDisplayMedia` are nondeterministic
  environment events: each operation that may capture takes an
  `Option Nat` argument - `none` models the promise rejecting
  (no device / permission denied), `some tid` models success returning a
  fresh track with id `tid`.
* Outbound effects are append-only logs inside the state: `sent` for
  `sendSignal` calls, `dbNotifs` / `dbMsgs` for rows inserted into the
  external store, `closedLog` for `RTCPeerConnection.close()` calls.
  Generated row ids and `Date.now()` timestamps are not modelled (no
  claim observes them); all other row fields are kept.
* `createOffer` / `createAnswer` / `setRemoteDescription` /
  `setLocalDescription` / `replaceTrack` / `addTrack` are assumed to
  succeed (their failure paths are not exercised by any claim); SDP
  descriptions are opaque `Nat` values.
-/

namespace SetuWorld

/-- `MediaStreamTrack.kind`. -/
inductive TrackKind where
  | audio
  | video
  deriving DecidableEq, Repr

/-- The mutable attributes of a `MediaStreamTrack`: `enabled`,
`readyState === 'live'`, and whether the track is a display capture
(`label.includes('screen') || getSettings().displaySurface`). -/
structure TrackData where
  kind : TrackKind
  enabled : Bool
  live : Bool
  isScreen : Bool
  deriving DecidableEq, Repr

/-- The track heap: track id to current track attributes. -/
abbrev TrackHeap := List (Nat × TrackData)

/-- A `MediaStream` as the list of ids of the tracks it holds. -/
abbrev Stream := List Nat

/-- One `RTCRtpSender`: its current track (null after
`replaceTrack(null)`). -/
structure SenderSlot where
  track : Option Nat
  deriving DecidableEq, Repr

/-- One `RTCPeerConnection`: its senders, session descriptions and the
ICE candidates applied so far. -/
structure Conn where
  senders : List SenderSlot
  remoteDesc : Option Nat
  localDesc : Option Nat
  candidates : List Nat
  deriving DecidableEq, Repr

/-- A fresh `new RTCPeerConnection(RTC_CONFIG)`. -/
def Conn.fresh : Conn := ⟨[], none, none, []⟩

/-- The `IncomingCall` record (store.tsx:439): caller id and the raw
offer description. -/
structure IncomingCall where
  callerId : String
  offer : Nat
  deriving DecidableEq, Repr

/-- Signal message types (types.ts `SignalType`). -/
inductive SigType where
  | OFFER
  | ANSWER
  | CANDIDATE
  | HANGUP
  | CHAT_MSG
  | CHAT_MESSAGE
  | USER_ONLINE
  | SCREEN_STARTED
  | SCREEN_STOPPED
  deriving DecidableEq, Repr

/-- A chat message row as held in the `messages` state / broadcast in a
`CHAT_MESSAGE` payload. -/
structure ChatRow where
  id : String
  senderId : String
  recipientId : Option String
  text : String
  mtype : String
  deriving DecidableEq, Repr

/-- Typed signal payloads (the source uses `any`; only these shapes are
ever sent or read by the handler). -/
inductive Payload where
  | sdp (d : Nat)
  | candidate (c : Option Nat)
  | chat (m : ChatRow)
  | screenStopped (hasCameraFallback : Bool)
  | empty
  deriving DecidableEq, Repr

/-- A signaling channel message (`SignalData`). -/
structure SigMsg where
  type : SigType
  senderId : String
  recipientId : Option String
  payload : Payload
  deriving DecidableEq, Repr

/-- Row inserted into the external `notifications` table for a missed
call (store.tsx:482; generated id and timestamp omitted). -/
structure NotifRow where
  recipientId : String
  senderId : String
  ntype : String
  title : String
  message : String
  read : Bool
  linkTo : String
  deriving DecidableEq, Repr

/-- Row inserted into the external `messages` table for a missed call
(store.tsx:496; generated id and timestamp omitted). -/
structure MsgRow where
  senderId : String
  recipientId : String
  text : String
  mtype : String
  deriving DecidableEq, Repr

/-- A user visible to the store (only the fields the call core reads). -/
structure UserRec where
  id : String
  name : String
  deriving DecidableEq, Repr

/-- The whole call-coordinator state: the provider's call-related state
variables and refs, plus append-only logs of its outbound effects. -/
structure St where
  me : String
  users : List UserRec
  incomingCall : Option IncomingCall
  isInCall : Bool
  activeCallData : Option (List String)
  localStream : Option Stream
  localAudioStream : Option Stream
  localVideoStream : Option Stream
  remoteStreams : List (String × Stream)
  isScreenSharing : Bool
  isMicOn : Bool
  isCameraOn : Bool
  prevCameraWasOn : Bool
  pcs : List (String × Conn)
  trackHeap : TrackHeap
  chatMessages : List ChatRow
  connected : Bool
  sent : List SigMsg
  dbNotifs : List NotifRow
  dbMsgs : List MsgRow
  closedLog : List String
  deriving DecidableEq, Repr

/-- Association-list lookup (JS `Map.get`: first entry with the key). -/
def lookupL {α : Type} (m : List (String × α)) (k : String) : Option α :=
  match m with
  | [] => none
  | p :: rest => if p.1 == k then some p.2 else lookupL rest k

/-- Association-list delete (JS `Map.delete`). -/
def eraseL {α : Type} (m : List (String × α)) (k : String) : List (String × α) :=
  m.filter (fun p => p.1 != k)

/-- Association-list insert/overwrite (JS `Map.set`: an existing key
keeps its position, a new key is appended). -/
def setL {α : Type} (m : List (String × α)) (k : String) (v : α) : List (String × α) :=
  if (m.find? (fun p => p.1 == k)).isSome then
    m.map (fun p => if p.1 == k then (k, v) else p)
  else m ++ [(k, v)]

/-- Heap lookup of a track's attributes (first entry with the id). -/
def heapGet (h : TrackHeap) (tid : Nat) : Option TrackData :=
  match h with
  | [] => none
  | p :: rest => if p.1 == tid then some p.2 else heapGet rest tid

/-- The kind of a track, looked up in the heap. -/
def kindOf (h : TrackHeap) (tid : Nat) : Option TrackKind :=
  (heapGet h tid).map (fun d => d.kind)

/-- Set `enabled` on every track whose id is in `tids`. -/
def heapSetEnabled (h : TrackHeap) (tids : List Nat) (b : Bool) : TrackHeap :=
  h.map (fun p => if p.1 ∈ tids then (p.1, { p.2 with enabled := b }) else p)

/-- `track.stop()` on every track whose id is in `tids`. -/
def heapStop (h : TrackHeap) (tids : List Nat) : TrackHeap :=
  h.map (fun p => if p.1 ∈ tids then (p.1, { p.2 with live := false }) else p)

/-- Register a newly captured track. -/
def heapAdd (h : TrackHeap) (tid : Nat) (d : TrackData) : TrackHeap :=
  (tid, d) :: h

/-- `stream.getAudioTracks()`. -/
def audioTracksOf (h : TrackHeap) (st : Stream) : List Nat :=
  st.filter (fun tid => kindOf h tid == some TrackKind.audio)

/-- `stream.getVideoTracks()`. -/
def videoTracksOf (h : TrackHeap) (st : Stream) : List Nat :=
  st.filter (fun tid => kindOf h tid == some TrackKind.video)

/-- Whether a video track is a display-capture track (the test at
store.tsx:1239 and store.tsx:1508). -/
def isScreenTrack (h : TrackHeap) (tid : Nat) : Bool :=
  match heapGet h tid with
  | some d => d.isScreen
  | none => false

/-- `track.readyState === 'live'`. -/
def isLiveTrack (h : TrackHeap) (t : Nat) : Bool :=
  match heapGet h t with
  | some d => d.live
  | none => false

/-- `pc.getSenders().find(s => s.track && s.track.kind === kind)` -
index of the first sender holding a track of the given kind. -/
def findSenderIdx (h : TrackHeap) (senders : List SenderSlot) (k : TrackKind) : Option Nat :=
  match senders with
  | [] => none
  | sd :: rest =>
    if (match sd.track with
        | some tid => kindOf h tid == some k
        | none => false) then some 0
    else (findSenderIdx h rest k).map (fun i => i + 1)

/-- `sender.replaceTrack(t)` on the sender at index `i`. -/
def replaceAt (senders : List SenderSlot) (i : Nat) (t : Option Nat) : List SenderSlot :=
  senders.set i ⟨t⟩

/-- Attach a track to a connection the way the source does: replace the
first matching-kind sender's track, else `pc.addTrack`.  Returns the
updated connection and whether a track was *added* (a topology change
that sets the source's `negotiationNeeded` flag). -/
def attachTrack (h : TrackHeap) (pc : Conn) (k : TrackKind) (tid : Nat) : Conn × Bool :=
  match findSenderIdx h pc.senders k with
  | some i => ({ pc with senders := replaceAt pc.senders i (some tid) }, false)
  | none => ({ pc with senders := pc.senders ++ [⟨some tid⟩] }, true)

/-- `sender.replaceTrack(null)` on the first video sender, if any. -/
def clearVideoSender (h : TrackHeap) (pc : Conn) : Conn :=
  match findSenderIdx h pc.senders TrackKind.video with
  | some i => { pc with senders := replaceAt pc.senders i none }
  | none => pc

/-- `pc.addTrack(track, stream)` unconditionally (used when wiring a
fresh connection in `startGroupCall` / `acceptIncomingCall`). -/
def addTrackRaw (pc : Conn) (tid : Nat) : Conn :=
  { pc with senders := pc.senders ++ [⟨some tid⟩] }

/-- Opaque SDP produced by `createOffer`. -/
def mkOffer : Nat := 0

/-- Opaque SDP produced by `createAnswer` for a given remote offer. -/
def mkAnswer (offer : Nat) : Nat := offer + 1

/-- `sendSignal` (store.tsx:571): broadcast-publish a typed signal;
silently dropped when the channel is not subscribed. -/
def sendSignal (s : St) (ty : SigType) (recip : Option String) (pl : Payload) : St :=
  if s.connected then
    { s with sent := s.sent ++ [⟨ty, s.me, recip, pl⟩] }
  else s

/-- Replace the connection registered under `rid` in place (JS
`RTCPeerConnection` objects are mutated through the live `Map`). -/
def updateConn (s : St) (rid : String) (f : Conn → Conn) : St :=
  { s with pcs := s.pcs.map (fun p => if p.1 == rid then (p.1, f p.2) else p) }

/-- `composeLocalStream` (store.tsx:1144): rebuild the preview stream
from the current audio and video slots. -/
def composeLocalStream (s : St) : St :=
  { s with localStream := some (s.localAudioStream.getD [] ++ s.localVideoStream.getD []) }

/-- `renegotiate` (store.tsx:1153): one fresh offer per open connection.
`staleLocal` is the `localStream` *state* value captured by the closure
at render time (the guard `if (!localStream) return` reads it, not the
ref), passed explicitly by each caller. -/
def renegotiate (s : St) (staleLocal : Option Stream) : St :=
  match staleLocal with
  | none => s
  | some _ =>
    s.pcs.foldl
      (fun acc (p : String × Conn) =>
        sendSignal (updateConn acc p.1 (fun c => { c with localDesc := some mkOffer }))
          SigType.OFFER (some p.1) (Payload.sdp mkOffer))
      s

/-- Replace-else-add a track of kind `k` on every registered connection
(the per-peer loops in `toggleCamera` / `toggleScreenShare` /
`stopScreenSharing`); the returned flag is the source's
`negotiationNeeded` (a track was added somewhere). -/
def attachToAll (s : St) (k : TrackKind) (tid : Nat) : St × Bool :=
  let results := s.pcs.map (fun p => (p.1, attachTrack s.trackHeap p.2 k tid))
  ({ s with pcs := results.map (fun r => (r.1, r.2.1)) },
   results.any (fun r => r.2.2))

/-- The audio-sender fix-up applied per connection when unmuting
(store.tsx:1210) and after a screen share stops (store.tsx:1520):
replace the audio sender's track when it differs from the live track;
`addIfMissing` distinguishes the `toggleMic` variant, which also
`addTrack`s when no audio sender exists. -/
def fixAudioSender (h : TrackHeap) (pc : Conn) (a : Nat) (addIfMissing : Bool) : Conn :=
  match findSenderIdx h pc.senders TrackKind.audio with
  | some i =>
    match pc.senders.get? i with
    | some sd => if sd.track == some a then pc else { pc with senders := replaceAt pc.senders i (some a) }
    | none => pc
  | none => if addIfMissing then addTrackRaw pc a else pc

/-- `toggleMic` (store.tsx:1166).  `micResult` is the outcome of
`getUserMedia({audio:true})` on the first-acquisition path. -/
def toggleMic (s : St) (micResult : Option Nat) : St :=
  match s.localAudioStream with
  | none =>
    match micResult with
    | none => s
    | some tid =>
      let s1 := { s with trackHeap := heapAdd s.trackHeap tid ⟨TrackKind.audio, true, true, false⟩,
                         localAudioStream := some [tid], isMicOn := true }
      let s2 := { s1 with pcs := s1.pcs.map (fun p => (p.1, (attachTrack s1.trackHeap p.2 TrackKind.audio tid).1)) }
      renegotiate (composeLocalStream s2) s.localStream
  | some ast =>
    let newStatus := !s.isMicOn
    let audioIds := audioTracksOf s.trackHeap ast
    let s1 := { s with trackHeap := heapSetEnabled s.trackHeap audioIds newStatus,
                       isMicOn := newStatus }
    if newStatus then
      match (audioIds.find? (isLiveTrack s1.trackHeap)).orElse (fun _ => audioIds.head?) with
      | none => s1
      | some a => { s1 with pcs := s1.pcs.map (fun p => (p.1, fixAudioSender s1.trackHeap p.2 a true)) }
    else s1

/-- Step 1 of `stopScreenSharing` (store.tsx:1452-1504): when the
camera was active before the share began, re-acquire it
(make-before-break) and install it on every peer; otherwise clear every
video sender.  Returns the state plus the `negotiationNeeded`,
`hasCameraFallback` and camera-restored flags. -/
def sssStep1 (s : St) (camResult : Option Nat) : St × Bool × Bool × Bool :=
  if s.prevCameraWasOn then
    match camResult with
    | some tid =>
      let sa := { s with trackHeap := heapAdd s.trackHeap tid ⟨TrackKind.video, true, true, false⟩,
                         localVideoStream := some [tid], isCameraOn := true }
      let r := attachToAll sa TrackKind.video tid
      ({ r.1 with prevCameraWasOn := false }, r.2, true, true)
    | none =>
      let sa := { s with pcs := s.pcs.map (fun (p : String × Conn) => (p.1, clearVideoSender s.trackHeap p.2)) }
      ({ sa with prevCameraWasOn := false }, false, false, false)
  else
    ({ s with pcs := s.pcs.map (fun (p : String × Conn) => (p.1, clearVideoSender s.trackHeap p.2)) },
     false, false, false)

/-- The audio-sender repair at store.tsx:1517-1527: point every audio
sender at the live audio track again. -/
def sssAudioFix (s : St) (origAudio : Option Stream) : St :=
  match origAudio with
  | none => s
  | some ast =>
    match (audioTracksOf s.trackHeap ast).find? (isLiveTrack s.trackHeap) with
    | none => s
    | some a => { s with pcs := s.pcs.map (fun p => (p.1, fixAudioSender s.trackHeap p.2 a false)) }

/-- `stopScreenSharing` (store.tsx:1442).  `camResult` is the outcome of
the camera re-acquisition attempted when the camera was active before
the share began. -/
def stopScreenSharing (s : St) (camResult : Option Nat) : St :=
  match s.localVideoStream with
  | none => s
  | some vs =>
    if s.pcs.isEmpty then s
    else
      let staleLocal := s.localStream
      let step1 := sssStep1 s camResult
      let s1 := step1.1
      let negotiationNeeded := step1.2.1
      let hasCameraFallback := step1.2.2.1
      let restored := step1.2.2.2
      let screenIds := (videoTracksOf s1.trackHeap vs).filter (fun t => isScreenTrack s1.trackHeap t)
      let s2 := { s1 with trackHeap := heapStop s1.trackHeap screenIds }
      let s3 := if restored then s2
                else { s2 with localVideoStream := some (vs.filter (fun t => !(screenIds.contains t))) }
      let s4 := { s3 with isScreenSharing := false }
      let s5 := sssAudioFix s4 s.localAudioStream
      let s6 := composeLocalStream s5
      let s7 := if negotiationNeeded then renegotiate s6 staleLocal else s6
      sendSignal s7 SigType.SCREEN_STOPPED none (Payload.screenStopped hasCameraFallback)

/-- The tail of `toggleCamera`'s turn-on path (store.tsx:1269-1286):
install the fresh camera track as the local video slot, replace-or-add
it on every peer, recompose the preview and renegotiate (the
renegotiation guard reads the stale closure value `stale`). -/
def installVideoTrack (t : St) (tid : Nat) (stale : Option Stream) : St :=
  let s3 := { t with localVideoStream := some [tid], isCameraOn := true }
  let s4 := { s3 with pcs := s3.pcs.map (fun p => (p.1, (attachTrack s3.trackHeap p.2 TrackKind.video tid).1)) }
  renegotiate (composeLocalStream s4) stale

/-- `toggleCamera` (store.tsx:1231).  `camResult` is the outcome of
`getUserMedia({video:true})`; `sscCam` is threaded to the nested
`stopScreenSharing` call. -/
def toggleCamera (s : St) (camResult : Option Nat) (sscCam : Option Nat) : St :=
  if s.isCameraOn then
    match s.localVideoStream with
    | none => s
    | some vs =>
      let camIds := (videoTracksOf s.trackHeap vs).filter (fun t => !(isScreenTrack s.trackHeap t))
      let vsKept := vs.filter (fun t => !(camIds.contains t))
      let s1 := { s with trackHeap := heapStop s.trackHeap camIds,
                         localVideoStream := if vsKept.isEmpty then none else some vsKept,
                         isCameraOn := false }
      let s2 := { s1 with pcs := s1.pcs.map (fun p => (p.1, clearVideoSender s1.trackHeap p.2)) }
      composeLocalStream s2
  else
    match camResult with
    | none => s
    | some tid =>
      let s1 := { s with trackHeap := heapAdd s.trackHeap tid ⟨TrackKind.video, true, true, false⟩ }
      let s2 := if s.isScreenSharing then stopScreenSharing s1 sscCam else s1
      installVideoTrack s2 tid s.localStream

/-- `toggleScreenShare` (store.tsx:1544).  `screenResult` is the outcome
of `getDisplayMedia`; `sscCam` is threaded to `stopScreenSharing`. -/
def toggleScreenShare (s : St) (screenResult : Option Nat) (sscCam : Option Nat) : St :=
  if s.pcs.isEmpty then s
  else if s.isScreenSharing then stopScreenSharing s sscCam
  else
    match screenResult with
    | none => s
    | some tid =>
      let oldCam : Option Stream := if s.isCameraOn then s.localVideoStream else none
      let s1 := { s with trackHeap := heapAdd s.trackHeap tid ⟨TrackKind.video, true, true, true⟩,
                         prevCameraWasOn := s.isCameraOn, isCameraOn := false,
                         localVideoStream := some [tid] }
      let r := attachToAll s1 TrackKind.video tid
      let s3 :=
        match oldCam with
        | none => r.1
        | some oc => { r.1 with trackHeap := heapStop r.1.trackHeap (videoTracksOf r.1.trackHeap oc) }
      let s4 := { s3 with isScreenSharing := true }
      let s5 := composeLocalStream s4
      let s6 := if r.2 then renegotiate s5 s.localStream else s5
      sendSignal s6 SigType.SCREEN_STARTED none Payload.empty

/-- Register a fresh connection for `rid`, add every track of `stream`,
set the local offer and send it (the per-recipient body of
`startGroupCall` and `initiateCallConnection`). -/
def wireConnection (s : St) (stream : Stream) (rid : String) : St :=
  let conn := { stream.foldl (fun c t => addTrackRaw c t) Conn.fresh with localDesc := some mkOffer }
  sendSignal { s with pcs := setL s.pcs rid conn } SigType.OFFER (some rid) (Payload.sdp mkOffer)

/-- `startGroupCall` (store.tsx:1296).  `micResult` is the outcome of
`getUserMedia({audio:true})` when no local stream exists yet. -/
def startGroupCall (s : St) (recipientIds : List String) (micResult : Option Nat) : St :=
  if recipientIds.isEmpty then s
  else
    match s.localStream with
    | some stream =>
      recipientIds.foldl (fun acc rid => wireConnection acc stream rid)
        { s with isInCall := true, activeCallData := some recipientIds }
    | none =>
      match micResult with
      | none => s
      | some tid =>
        let s1 := { s with trackHeap := heapAdd s.trackHeap tid ⟨TrackKind.audio, false, true, false⟩,
                           isMicOn := false, isCameraOn := false, localStream := some [tid] }
        recipientIds.foldl (fun acc rid => wireConnection acc [tid] rid)
          { s1 with isInCall := true, activeCallData := some recipientIds }

/-- `startCall` (store.tsx:1292). -/
def startCall (s : St) (recipientId : String) (micResult : Option Nat) : St :=
  startGroupCall s [recipientId] micResult

/-- `initiateCallConnection` (store.tsx:1338). -/
def initiateCallConnection (s : St) (rid : String) (micResult : Option Nat) : St :=
  match s.localStream with
  | some stream => wireConnection s stream rid
  | none =>
    match micResult with
    | none => s
    | some tid =>
      let s1 := { s with trackHeap := heapAdd s.trackHeap tid ⟨TrackKind.audio, false, true, false⟩,
                         localStream := some [tid], isMicOn := false }
      wireConnection s1 [tid] rid

/-- `addToCall` (store.tsx:1332): initiate the connection, then append
the recipient to `participantIds` (optimistically, no ANSWER awaited). -/
def addToCall (s : St) (rid : String) (micResult : Option Nat) : St :=
  if !s.isInCall then s
  else
    match s.activeCallData with
    | none => s
    | some _ =>
      let s1 := initiateCallConnection s rid micResult
      match s1.activeCallData with
      | none => s1
      | some l => { s1 with activeCallData := some (l ++ [rid]) }

/-- `acceptIncomingCall` (store.tsx:1363). -/
def acceptIncomingCall (s : St) (micResult : Option Nat) : St :=
  match s.incomingCall with
  | none => s
  | some ic =>
    match micResult with
    | none => s
    | some tid =>
      let s1 := { s with trackHeap := heapAdd s.trackHeap tid ⟨TrackKind.audio, false, true, false⟩,
                         isMicOn := false, isCameraOn := false, localStream := some [tid] }
      let conn := { addTrackRaw Conn.fresh tid with
                      remoteDesc := some ic.offer, localDesc := some (mkAnswer ic.offer) }
      let s2 := sendSignal { s1 with pcs := setL s1.pcs ic.callerId conn }
                  SigType.ANSWER (some ic.callerId) (Payload.sdp (mkAnswer ic.offer))
      { s2 with isInCall := true, activeCallData := some [ic.callerId], incomingCall := none }

/-- `rejectIncomingCall` (store.tsx:1393). -/
def rejectIncomingCall (s : St) : St :=
  match s.incomingCall with
  | none => s
  | some ic => { sendSignal s SigType.HANGUP (some ic.callerId) Payload.empty with incomingCall := none }

/-- `cleanupCall` (store.tsx:1419): full teardown to idle. -/
def cleanupCall (s : St) : St :=
  { s with
    trackHeap := heapStop (heapStop s.trackHeap (s.localAudioStream.getD []))
                   (s.localVideoStream.getD []),
    localAudioStream := none, localVideoStream := none,
    closedLog := s.closedLog ++ s.pcs.map (fun p => p.1),
    pcs := [],
    localStream := none, remoteStreams := [],
    isInCall := false, activeCallData := none,
    isScreenSharing := false, isMicOn := false, isCameraOn := false }

/-- `endCall` (store.tsx:1400): HANGUP to every participant, then full
teardown. -/
def endCall (s : St) : St :=
  cleanupCall
    (match s.activeCallData with
     | some l => l.foldl (fun acc pid => sendSignal acc SigType.HANGUP (some pid) Payload.empty) s
     | none => s)

/-- `handleRemoteHangup` (store.tsx:1407). -/
def handleRemoteHangup (s : St) (sender : String) : St :=
  let s1 :=
    match lookupL s.pcs sender with
    | some _ => { s with pcs := eraseL s.pcs sender, closedLog := s.closedLog ++ [sender] }
    | none => s
  let s2 := { s1 with remoteStreams := eraseL s1.remoteStreams sender }
  match s2.activeCallData with
  | none => s2
  | some l =>
    let newIds := l.filter (fun id => id != sender)
    if newIds.isEmpty then cleanupCall s2
    else { s2 with activeCallData := some newIds }

/-- The missed-call notification row inserted at store.tsx:482. -/
def missedNotifRow (s : St) (sender : String) : NotifRow :=
  let callerName := (((s.users.find? (fun u => u.id == sender)).map (fun u => u.name)).getD "Unknown User")
  ⟨s.me, sender, "MISSED_CALL", "Missed Call",
   "You missed a call from " ++ callerName, false, sender⟩

/-- The missed-call chat message row inserted at store.tsx:496. -/
def missedMsgRow (s : St) (sender : String) : MsgRow :=
  ⟨sender, s.me, "Missed Call", "missed_call"⟩

/-- The missed-call check at the head of the HANGUP case
(store.tsx:475-508): when the pending unanswered incoming offer is from
the hanging-up sender, insert one notification row and one chat message
row and clear the incoming-call record. -/
def missedCallCheck (s : St) (sender : String) : St :=
  match s.incomingCall with
  | some ic =>
    if ic.callerId == sender then
      { s with dbNotifs := s.dbNotifs ++ [missedNotifRow s sender],
               dbMsgs := s.dbMsgs ++ [missedMsgRow s sender],
               incomingCall := none }
    else s
  | none => s

/-- The broadcast signal handler (store.tsx:408): filtering, then the
per-type switch. -/
def handleSignal (s : St) (sig : SigMsg) : St :=
  if (match sig.recipientId with
      | some r => r != s.me && sig.type != SigType.USER_ONLINE
      | none => false) then s
  else if sig.senderId == s.me then s
  else
    match sig.type with
    | SigType.USER_ONLINE => s
    | SigType.OFFER =>
      match sig.payload with
      | Payload.sdp d =>
        let parts := s.activeCallData.getD []
        if s.isInCall && !(parts.contains sig.senderId) then s
        else if s.isInCall && parts.contains sig.senderId then
          match lookupL s.pcs sig.senderId with
          | none => s
          | some pc =>
            sendSignal
              (updateConn s sig.senderId (fun _ =>
                { pc with remoteDesc := some d, localDesc := some (mkAnswer d) }))
              SigType.ANSWER (some sig.senderId) (Payload.sdp (mkAnswer d))
        else { s with incomingCall := some ⟨sig.senderId, d⟩ }
      | _ => s
    | SigType.ANSWER =>
      match sig.payload with
      | Payload.sdp d =>
        match lookupL s.pcs sig.senderId with
        | none => s
        | some pc =>
          let s1 := updateConn s sig.senderId (fun _ => { pc with remoteDesc := some d })
          match s1.activeCallData with
          | none => s1
          | some l =>
            if l.contains sig.senderId then s1
            else { s1 with activeCallData := some (l ++ [sig.senderId]) }
      | _ => s
    | SigType.CANDIDATE =>
      match sig.payload with
      | Payload.candidate (some c) =>
        match lookupL s.pcs sig.senderId with
        | none => s
        | some pc =>
          updateConn s sig.senderId (fun _ => { pc with candidates := pc.candidates ++ [c] })
      | _ => s
    | SigType.HANGUP =>
      handleRemoteHangup (missedCallCheck s sig.senderId) sig.senderId
    | SigType.CHAT_MESSAGE =>
      match sig.payload with
      | Payload.chat m =>
        if s.chatMessages.any (fun x => x.id == m.id) then s
        else { s with chatMessages := s.chatMessages ++ [m] }
      | _ => s
    | SigType.SCREEN_STOPPED =>
      match sig.payload with
      | Payload.screenStopped hcf =>
        if hcf then s
        else
          match lookupL s.remoteStreams sig.senderId with
          | none => s
          | some existing =>
            { s with remoteStreams :=
                s.remoteStreams.map (fun p =>
                  if p.1 == sig.senderId then (p.1, audioTracksOf s.trackHeap existing) else p) }
      | _ => s
    | SigType.SCREEN_STARTED => s
    | SigType.CHAT_MSG => s

/-- One user-or-network event of the coordinator; the outcome of any
media capture the operation performs is supplied as data (`none` =
capture rejected). -/
inductive Op where
  | tMic (mic : Option Nat)
  | tCam (cam : Option Nat) (sscCam : Option Nat)
  | tShare (scr : Option Nat) (sscCam : Option Nat)
  | stopShare (cam : Option Nat)
  | startGroup (ids : List String) (mic : Option Nat)
  | start1 (rid : String) (mic : Option Nat)
  | addTo (rid : String) (mic : Option Nat)
  | accept (mic : Option Nat)
  | reject
  | hangup
  | recv (sig : SigMsg)
  deriving DecidableEq, Repr

/-- Apply one operation. -/
def applyOp (s : St) : Op → St
  | Op.tMic mic => toggleMic s mic
  | Op.tCam cam ssc => toggleCamera s cam ssc
  | Op.tShare scr ssc => toggleScreenShare s scr ssc
  | Op.stopShare cam => stopScreenSharing s cam
  | Op.startGroup ids mic => startGroupCall s ids mic
  | Op.start1 rid mic => startCall s rid mic
  | Op.addTo rid mic => addToCall s rid mic
  | Op.accept mic => acceptIncomingCall s mic
  | Op.reject => rejectIncomingCall s
  | Op.hangup => endCall s
  | Op.recv sig => handleSignal s sig

/-- The idle initial state of a freshly mounted provider for local user
`me`, with the signaling channel subscribed. -/
def initSt (me : String) : St :=
  { me := me, users := [], incomingCall := none, isInCall := false,
    activeCallData := none, localStream := none, localAudioStream := none,
    localVideoStream := none, remoteStreams := [], isScreenSharing := false,
    isMicOn := false, isCameraOn := false, prevCameraWasOn := false,
    pcs := [], trackHeap := [], chatMessages := [], connected := true,
    sent := [], dbNotifs := [], dbMsgs := [], closedLog := [] }

/-- The state after a sequence of operations from the initial state. -/
def runOps (me : String) (ops : List Op) : St :=
  ops.foldl applyOp (initSt me)

/-- The participant ids registered in the peer-connection registry. -/
def pcKeys (s : St) : List String :=
  s.pcs.map (fun p => p.1)

/-- `activeCallData.participantIds` (empty when no call data). -/
def participants (s : St) : List String :=
  s.activeCallData.getD []

/-- The inductive invariant of the coordinator:
mutual exclusion of camera and screen share, plus the supporting facts
that make it inductive (an active screen share implies a registered
connection, a video slot and live call data; participants always have a
registered connection; being in a call implies a local stream; a
non-empty registry implies call data). -/
def Inv (s : St) : Prop :=
  ¬(s.isCameraOn = true ∧ s.isScreenSharing = true) ∧
  (s.isScreenSharing = true →
    pcKeys s ≠ [] ∧ s.localVideoStream.isSome ∧ s.activeCallData.isSome) ∧
  (∀ x ∈ participants s, x ∈ pcKeys s) ∧
  (s.isInCall = true → s.localStream.isSome) ∧
  (pcKeys s ≠ [] → s.activeCallData.isSome)

/-- Two states that agree on every field the invariant reads. -/
def SameView (a b : St) : Prop :=
  b.isCameraOn = a.isCameraOn ∧ b.isScreenSharing = a.isScreenSharing ∧
  b.isInCall = a.isInCall ∧ b.activeCallData = a.activeCallData ∧
  b.localStream = a.localStream ∧ b.localVideoStream = a.localVideoStream ∧
  pcKeys b = pcKeys a

/-- Witness state: local user `u1` in an active call with `u2`. -/
def wCallSt : St :=
  { initSt "u1" with isInCall := true, activeCallData := some ["u2"],
                     pcs := [("u2", Conn.fresh)] }

/-- Witness state: local user `u1` with a pending unanswered incoming
offer from `u2`. -/
def wRingSt : St :=
  { initSt "u1" with incomingCall := some ⟨"u2", 5⟩ }

/-- Witness state: in a call with `u2`, one live muted audio track
(id 1) captured and attached to `u2`'s audio sender. -/
def wMicSt : St :=
  { wCallSt with localAudioStream := some [1], localStream := some [1],
                 trackHeap := [(1, ⟨TrackKind.audio, false, true, false⟩)],
                 isMicOn := false,
                 pcs := [("u2", { Conn.fresh with senders := [⟨some 1⟩] })] }

/-! ## Theorems -/

/-- C10: `toggleScreenShare` is a no-op with an empty peer-connection
registry, and `stopScreenSharing` is a no-op with an empty registry or
no local video stream: screen sharing can neither start nor be torn
down outside an established call. -/
theorem screenshare_guard_noop (s : St) (scr ssc cam : Option Nat) :
    (s.pcs = [] → toggleScreenShare s scr ssc = s) ∧
    (s.pcs = [] ∨ s.localVideoStream = none → stopScreenSharing s cam = s) := by
  constructor
  · intro h
    simp [toggleScreenShare, h]
  · intro h
    rcases h with h | h
    · unfold stopScreenSharing
      cases hv : s.localVideoStream with
      | none => rfl
      | some vs => simp [h]
    · simp [stopScreenSharing, h]

/-- C10 witness. -/
theorem screenshare_guard_noop_witness :
    (initSt "u1").pcs = [] ∧
    toggleScreenShare (initSt "u1") (some 5) none = initSt "u1" ∧
    stopScreenSharing (initSt "u1") none = initSt "u1" := by
  refine ⟨rfl, ?_, ?_⟩
  · exact (screenshare_guard_noop (initSt "u1") (some 5) none none).1 rfl
  · exact (screenshare_guard_noop (initSt "u1") (some 5) none none).2 (Or.inl rfl)

/-- C7: every media-capture failure (`getUserMedia` /
`getDisplayMedia` rejecting, modelled by the `none` capture outcome)
aborts the invoking operation with the state - flags, streams,
connections and the logs of sent signals - entirely unchanged. -/
theorem capture_failure_state_preserved (s : St) (ids : List String) (ssc : Option Nat) :
    (s.localAudioStream = none → toggleMic s none = s) ∧
    (s.isCameraOn = false → toggleCamera s none ssc = s) ∧
    (s.isScreenSharing = false → toggleScreenShare s none ssc = s) ∧
    (s.localStream = none → startGroupCall s ids none = s) ∧
    acceptIncomingCall s none = s := by
  refine ⟨?_, ?_, ?_, ?_, ?_⟩
  · intro h
    simp [toggleMic, h]
  · intro h
    simp [toggleCamera, h]
  · intro h
    unfold toggleScreenShare
    simp [h]
  · intro h
    unfold startGroupCall
    split
    · rfl
    · simp [h]
  · unfold acceptIncomingCall
    cases s.incomingCall <;> rfl

/-- C7 witness: a state about to capture in each operation, where the
capture fails. -/
theorem capture_failure_state_preserved_witness :
    (initSt "u1").localAudioStream = none ∧
    toggleMic (initSt "u1") none = initSt "u1" ∧
    toggleCamera (initSt "u1") none none = initSt "u1" ∧
    toggleScreenShare (initSt "u1") none none = initSt "u1" ∧
    startGroupCall (initSt "u1") ["u2"] none = initSt "u1" ∧
    acceptIncomingCall (initSt "u1") none = initSt "u1" := by
  have h := capture_failure_state_preserved (initSt "u1") ["u2"] none
  exact ⟨rfl, h.1 rfl, h.2.1 rfl, h.2.2.1 rfl, h.2.2.2.1 rfl, h.2.2.2.2⟩

/-- C8: the handler ignores self-echo (`senderId` equal to the local
id) and any message addressed to a different recipient: both leave the
state - including every effect log - unchanged. -/
theorem signal_filter_no_effect (s : St) (sig : SigMsg) :
    (sig.senderId = s.me → handleSignal s sig = s) ∧
    (∀ r, sig.recipientId = some r → r ≠ s.me → handleSignal s sig = s) := by
  constructor
  · intro h
    unfold handleSignal
    split
    · rfl
    · simp [h]
  · intro r hr hne
    unfold handleSignal
    split
    · rfl
    · rename_i hcond
      rw [hr] at hcond
      simp only [bne_iff_ne, ne_eq, Bool.and_eq_true, decide_eq_true_eq] at hcond
      have htype : sig.type = SigType.USER_ONLINE := by
        by_contra hty
        exact hcond ⟨by simpa using hne, by simpa using hty⟩
      split
      · rfl
      · rw [htype]

/-- C8 witness: a self-echoed message and a message addressed to a
third user are both discarded. -/
theorem signal_filter_no_effect_witness :
    handleSignal (initSt "u1") ⟨SigType.HANGUP, "u1", some "u1", Payload.empty⟩ = initSt "u1" ∧
    handleSignal (initSt "u1") ⟨SigType.OFFER, "u2", some "u3", Payload.sdp 7⟩ = initSt "u1" := by
  constructor
  · exact (signal_filter_no_effect (initSt "u1") ⟨SigType.HANGUP, "u1", some "u1", Payload.empty⟩).1 rfl
  · exact (signal_filter_no_effect (initSt "u1") ⟨SigType.OFFER, "u2", some "u3", Payload.sdp 7⟩).2
      "u3" rfl (by decide)

/-- C9: an ANSWER from a sender already in `participantIds` leaves the
membership unchanged; an ANSWER from a sender with no registered
connection leaves the whole state unchanged; and participant membership
stays duplicate-free through the ANSWER path. -/
theorem answer_membership_idempotent (s : St) (sender : String) (d : Nat)
    (hne : sender ≠ s.me) :
    (∀ l, s.activeCallData = some l → sender ∈ l →
      (handleSignal s ⟨SigType.ANSWER, sender, some s.me, Payload.sdp d⟩).activeCallData = some l) ∧
    (lookupL s.pcs sender = none →
      handleSignal s ⟨SigType.ANSWER, sender, some s.me, Payload.sdp d⟩ = s) ∧
    ((participants s).Nodup →
      (participants (handleSignal s ⟨SigType.ANSWER, sender, some s.me, Payload.sdp d⟩)).Nodup) := by
  have hne' : (sender == s.me) = false := by simpa using hne
  refine ⟨?_, ?_, ?_⟩
  · intro l hl hmem
    unfold handleSignal
    simp only [hne', bne_self_eq_false, Bool.and_eq_true, Bool.not_eq_true]
    cases hpc : lookupL s.pcs sender with
    | none => simpa using hl
    | some pc =>
      simp only [updateConn, hl]
      simp [hmem]
  · intro hpc
    unfold handleSignal
    simp [hne', hpc]
  · intro hnd
    unfold handleSignal
    simp only [hne', bne_self_eq_false, Bool.and_eq_true, Bool.not_eq_true]
    cases hpc : lookupL s.pcs sender with
    | none => simpa [participants] using hnd
    | some pc =>
      simp only [updateConn]
      cases hl : s.activeCallData with
      | none => simp [participants, hl]
      | some l =>
        simp only [participants, hl, Option.getD_some] at hnd
        by_cases hmem : sender ∈ l
        · simpa [participants, hmem] using hnd
        · simp [participants, hmem, List.nodup_append, hnd]

/-- C9 witness: a two-participant call receiving a duplicate ANSWER
from an existing participant, and an ANSWER from a stranger. -/
theorem answer_membership_idempotent_witness :
    (handleSignal wCallSt ⟨SigType.ANSWER, "u2", some "u1", Payload.sdp 3⟩).activeCallData = some ["u2"] ∧
    handleSignal wCallSt ⟨SigType.ANSWER, "u9", some "u1", Payload.sdp 3⟩ = wCallSt ∧
    (participants (handleSignal wCallSt ⟨SigType.ANSWER, "u2", some "u1", Payload.sdp 3⟩)).Nodup := by
  refine ⟨?_, ?_, ?_⟩
  · exact (answer_membership_idempotent wCallSt "u2" 3 (by decide)).1 ["u2"] rfl (by decide)
  · exact (answer_membership_idempotent wCallSt "u9" 3 (by decide)).2.1 (by decide)
  · exact (answer_membership_idempotent wCallSt "u2" 3 (by decide)).2.2 (by decide)

/-- `sendSignal` only appends to the `sent` log. -/
@[simp] theorem sendSignal_pcs (s : St) (ty r pl) : (sendSignal s ty r pl).pcs = s.pcs := by
  unfold sendSignal; split <;> rfl

@[simp] theorem sendSignal_incomingCall (s : St) (ty r pl) :
    (sendSignal s ty r pl).incomingCall = s.incomingCall := by
  unfold sendSignal; split <;> rfl

@[simp] theorem sendSignal_isInCall (s : St) (ty r pl) :
    (sendSignal s ty r pl).isInCall = s.isInCall := by
  unfold sendSignal; split <;> rfl

@[simp] theorem sendSignal_activeCallData (s : St) (ty r pl) :
    (sendSignal s ty r pl).activeCallData = s.activeCallData := by
  unfold sendSignal; split <;> rfl

@[simp] theorem sendSignal_localStream (s : St) (ty r pl) :
    (sendSignal s ty r pl).localStream = s.localStream := by
  unfold sendSignal; split <;> rfl

@[simp] theorem sendSignal_localAudioStream (s : St) (ty r pl) :
    (sendSignal s ty r pl).localAudioStream = s.localAudioStream := by
  unfold sendSignal; split <;> rfl

@[simp] theorem sendSignal_localVideoStream (s : St) (ty r pl) :
    (sendSignal s ty r pl).localVideoStream = s.localVideoStream := by
  unfold sendSignal; split <;> rfl

@[simp] theorem sendSignal_isMicOn (s : St) (ty r pl) :
    (sendSignal s ty r pl).isMicOn = s.isMicOn := by
  unfold sendSignal; split <;> rfl

@[simp] theorem sendSignal_isCameraOn (s : St) (ty r pl) :
    (sendSignal s ty r pl).isCameraOn = s.isCameraOn := by
  unfold sendSignal; split <;> rfl

@[simp] theorem sendSignal_isScreenSharing (s : St) (ty r pl) :
    (sendSignal s ty r pl).isScreenSharing = s.isScreenSharing := by
  unfold sendSignal; split <;> rfl

@[simp] theorem sendSignal_trackHeap (s : St) (ty r pl) :
    (sendSignal s ty r pl).trackHeap = s.trackHeap := by
  unfold sendSignal; split <;> rfl

@[simp] theorem sendSignal_me (s : St) (ty r pl) : (sendSignal s ty r pl).me = s.me := by
  unfold sendSignal; split <;> rfl

@[simp] theorem sendSignal_connected (s : St) (ty r pl) :
    (sendSignal s ty r pl).connected = s.connected := by
  unfold sendSignal; split <;> rfl

@[simp] theorem sendSignal_remoteStreams (s : St) (ty r pl) :
    (sendSignal s ty r pl).remoteStreams = s.remoteStreams := by
  unfold sendSignal; split <;> rfl

@[simp] theorem sendSignal_closedLog (s : St) (ty r pl) :
    (sendSignal s ty r pl).closedLog = s.closedLog := by
  unfold sendSignal; split <;> rfl

@[simp] theorem sendSignal_dbMsgs (s : St) (ty r pl) :
    (sendSignal s ty r pl).dbMsgs = s.dbMsgs := by
  unfold sendSignal; split <;> rfl

@[simp] theorem sendSignal_dbNotifs (s : St) (ty r pl) :
    (sendSignal s ty r pl).dbNotifs = s.dbNotifs := by
  unfold sendSignal; split <;> rfl

@[simp] theorem sendSignal_prevCameraWasOn (s : St) (ty r pl) :
    (sendSignal s ty r pl).prevCameraWasOn = s.prevCameraWasOn := by
  unfold sendSignal; split <;> rfl

/-- The `sent` log after `sendSignal` on a subscribed channel. -/
theorem sendSignal_sent_connected (s : St) (ty r pl) (h : s.connected = true) :
    (sendSignal s ty r pl).sent = s.sent ++ [⟨ty, s.me, r, pl⟩] := by
  unfold sendSignal
  simp [h]

/-- `updateConn` only rewrites a registered connection. -/
@[simp] theorem updateConn_incomingCall (s : St) (rid f) :
    (updateConn s rid f).incomingCall = s.incomingCall := rfl

@[simp] theorem updateConn_activeCallData (s : St) (rid f) :
    (updateConn s rid f).activeCallData = s.activeCallData := rfl

@[simp] theorem updateConn_sent (s : St) (rid f) : (updateConn s rid f).sent = s.sent := rfl

@[simp] theorem updateConn_me (s : St) (rid f) : (updateConn s rid f).me = s.me := rfl

@[simp] theorem updateConn_connected (s : St) (rid f) :
    (updateConn s rid f).connected = s.connected := rfl

/-- `updateConn` keeps the registry's keys. -/
theorem pcKeys_updateConn (s : St) (rid : String) (f : Conn → Conn) :
    pcKeys (updateConn s rid f) = pcKeys s := by
  unfold pcKeys updateConn
  simp only [List.map_map]
  apply List.map_congr_left
  intro p _
  simp only [Function.comp_apply]
  split <;> rfl

/-- Rewriting the entry under key `k` of an association list, seen
through lookup. -/
theorem lookupL_map_update {α : Type} (m : List (String × α)) (k : String) (f : α → α) :
    lookupL (m.map (fun p => if p.1 == k then (p.1, f p.2) else p)) k =
      (lookupL m k).map f := by
  induction m with
  | nil => rfl
  | cons p rest ih =>
    by_cases h : (p.1 == k) = true
    · simp [lookupL, h]
    · have h' : (p.1 == k) = false := by simpa using h
      simp only [List.map_cons, lookupL, h', Bool.false_eq_true, if_false]
      exact ih

/-- Looking up the rewritten key after `updateConn`. -/
theorem lookupL_updateConn_self (s : St) (rid : String) (f : Conn → Conn) :
    lookupL (updateConn s rid f).pcs rid = (lookupL s.pcs rid).map f :=
  lookupL_map_update s.pcs rid f

/-- `handleRemoteHangup` (and the `cleanupCall` it may trigger) never
touches the external-store logs or the incoming-call record. -/
theorem handleRemoteHangup_db (s : St) (x : String) :
    (handleRemoteHangup s x).dbMsgs = s.dbMsgs ∧
    (handleRemoteHangup s x).dbNotifs = s.dbNotifs ∧
    (handleRemoteHangup s x).incomingCall = s.incomingCall := by
  unfold handleRemoteHangup
  cases hpc : lookupL s.pcs x <;> cases hacd : s.activeCallData <;>
    simp [hacd, cleanupCall] <;> split <;> simp [cleanupCall]

/-- C1: a HANGUP from the caller of the pending unanswered
incoming-ringing record inserts exactly one missed-call chat message
row (sender = caller, recipient = local user) and exactly one
missed-call notification row (recipient = local user, sender = caller)
and clears the incoming-ringing record; a HANGUP from any other sender
inserts no rows. -/
theorem hangup_missed_call_record (s : St) (sig : SigMsg)
    (hty : sig.type = SigType.HANGUP)
    (hsender : sig.senderId ≠ s.me)
    (hrecip : sig.recipientId = none ∨ sig.recipientId = some s.me) :
    (∀ ic, s.incomingCall = some ic → ic.callerId = sig.senderId →
      (handleSignal s sig).dbMsgs = s.dbMsgs ++ [missedMsgRow s sig.senderId] ∧
      (handleSignal s sig).dbNotifs = s.dbNotifs ++ [missedNotifRow s sig.senderId] ∧
      (handleSignal s sig).incomingCall = none) ∧
    ((∀ ic, s.incomingCall = some ic → ic.callerId ≠ sig.senderId) →
      (handleSignal s sig).dbMsgs = s.dbMsgs ∧
      (handleSignal s sig).dbNotifs = s.dbNotifs) := by
  obtain ⟨ty, sender, recip, pl⟩ := sig
  simp only at hty hsender hrecip
  subst hty
  have hsender' : (sender == s.me) = false := by simpa using hsender
  have hfilter : handleSignal s ⟨SigType.HANGUP, sender, recip, pl⟩ =
      handleRemoteHangup (missedCallCheck s sender) sender := by
    unfold handleSignal
    rcases hrecip with h | h <;> simp [h, hsender']
  constructor
  · intro ic hic hcaller
    rw [hfilter]
    have hbeq : (ic.callerId == sender) = true := by simpa using hcaller
    have hmc : missedCallCheck s sender =
        { s with dbNotifs := s.dbNotifs ++ [missedNotifRow s sender],
                 dbMsgs := s.dbMsgs ++ [missedMsgRow s sender],
                 incomingCall := none } := by
      unfold missedCallCheck
      rw [hic]
      simp [hbeq]
    rw [hmc]
    exact ⟨(handleRemoteHangup_db _ _).1, (handleRemoteHangup_db _ _).2.1,
           (handleRemoteHangup_db _ _).2.2⟩
  · intro hno
    rw [hfilter]
    have hmc : missedCallCheck s sender = s := by
      unfold missedCallCheck
      cases hic : s.incomingCall with
      | none => rfl
      | some ic =>
        have hbeq : (ic.callerId == sender) = false := by
          simpa using hno ic hic
        simp [hbeq]
    rw [hmc]
    exact ⟨(handleRemoteHangup_db _ _).1, (handleRemoteHangup_db _ _).2.1⟩

/-- C1 witness: `u2` hangs up while their offer is still pending at
`u1` (one message and one notification row inserted, record cleared); a
stranger `u9` hanging up records nothing. -/
theorem hangup_missed_call_record_witness :
    ((handleSignal wRingSt ⟨SigType.HANGUP, "u2", some "u1", Payload.empty⟩).dbMsgs =
        [missedMsgRow wRingSt "u2"] ∧
      (handleSignal wRingSt ⟨SigType.HANGUP, "u2", some "u1", Payload.empty⟩).dbNotifs =
        [missedNotifRow wRingSt "u2"] ∧
      (handleSignal wRingSt ⟨SigType.HANGUP, "u2", some "u1", Payload.empty⟩).incomingCall = none) ∧
    ((handleSignal wRingSt ⟨SigType.HANGUP, "u9", some "u1", Payload.empty⟩).dbMsgs = [] ∧
      (handleSignal wRingSt ⟨SigType.HANGUP, "u9", some "u1", Payload.empty⟩).dbNotifs = []) := by
  constructor
  · have h := (hangup_missed_call_record wRingSt
      ⟨SigType.HANGUP, "u2", some "u1", Payload.empty⟩ rfl (by decide) (Or.inr rfl)).1
      ⟨"u2", 5⟩ rfl rfl
    simpa [wRingSt] using h
  · have h := (hangup_missed_call_record wRingSt
      ⟨SigType.HANGUP, "u9", some "u1", Payload.empty⟩ rfl (by decide) (Or.inr rfl)).2
      (by intro ic hic
          simp only [wRingSt] at hic
          simp at hic
          simp [← hic])
    simpa [wRingSt] using h

/-- `sendSignal` keeps the registry's keys. -/
theorem pcKeys_sendSignal (s : St) (ty r pl) : pcKeys (sendSignal s ty r pl) = pcKeys s := by
  unfold pcKeys
  rw [sendSignal_pcs]

/-- C2: an incoming OFFER is answered in place for a sender already in
`participantIds` (no new incoming-call record, no new connection),
ignored entirely for a non-participant while in a call, and recorded as
the incoming-ringing record (caller id plus raw offer) while idle, with
no media acquired. -/
theorem offer_routing (s : St) (sender : String) (d : Nat)
    (hsender : sender ≠ s.me) :
    (s.isInCall = true → sender ∈ participants s → s.connected = true →
      ∀ pc, lookupL s.pcs sender = some pc →
        (handleSignal s ⟨SigType.OFFER, sender, some s.me, Payload.sdp d⟩).incomingCall
            = s.incomingCall ∧
        pcKeys (handleSignal s ⟨SigType.OFFER, sender, some s.me, Payload.sdp d⟩) = pcKeys s ∧
        lookupL (handleSignal s ⟨SigType.OFFER, sender, some s.me, Payload.sdp d⟩).pcs sender =
          some { pc with remoteDesc := some d, localDesc := some (mkAnswer d) } ∧
        (handleSignal s ⟨SigType.OFFER, sender, some s.me, Payload.sdp d⟩).sent =
          s.sent ++ [⟨SigType.ANSWER, s.me, some sender, Payload.sdp (mkAnswer d)⟩]) ∧
    (s.isInCall = true → sender ∉ participants s →
      handleSignal s ⟨SigType.OFFER, sender, some s.me, Payload.sdp d⟩ = s) ∧
    (s.isInCall = false →
      handleSignal s ⟨SigType.OFFER, sender, some s.me, Payload.sdp d⟩ =
        { s with incomingCall := some ⟨sender, d⟩ }) := by
  have hsender' : (sender == s.me) = false := by simpa using hsender
  refine ⟨?_, ?_, ?_⟩
  · intro hin hmem hconn pc hpc
    have hcont : (s.activeCallData.getD []).contains sender = true :=
      List.elem_eq_true_of_mem (by simpa [participants] using hmem)
    unfold handleSignal
    simp only [hsender', bne_self_eq_false, Bool.false_and, Bool.false_eq_true, if_false,
      hin, hcont, Bool.not_true, Bool.and_false, Bool.true_and, Bool.and_true, if_true, hpc]
    refine ⟨by simp, ?_, ?_, ?_⟩
    · rw [pcKeys_sendSignal, pcKeys_updateConn]
    · rw [sendSignal_pcs]
      rw [lookupL_updateConn_self, hpc, Option.map_some']
    · rw [sendSignal_sent_connected _ _ _ _ (by simpa using hconn)]
      simp
  · intro hin hmem
    have hcont : (s.activeCallData.getD []).contains sender = false := by
      simpa [participants] using hmem
    unfold handleSignal
    simp only [participants] at hmem
    simp [hsender', hin, hcont]
    intro h
    exact absurd h hmem
  · intro hin
    unfold handleSignal
    simp [hsender', hin]

/-- C2 witness: in a call with `u2`, a renegotiation offer from `u2` is
answered in place; an offer from a stranger `u9` is dropped; the same
offer while idle creates the incoming-ringing record. -/
theorem offer_routing_witness :
    ((handleSignal wCallSt ⟨SigType.OFFER, "u2", some "u1", Payload.sdp 4⟩).incomingCall = none ∧
      pcKeys (handleSignal wCallSt ⟨SigType.OFFER, "u2", some "u1", Payload.sdp 4⟩) = ["u2"] ∧
      lookupL (handleSignal wCallSt ⟨SigType.OFFER, "u2", some "u1", Payload.sdp 4⟩).pcs "u2" =
        some { Conn.fresh with remoteDesc := some 4, localDesc := some (mkAnswer 4) } ∧
      (handleSignal wCallSt ⟨SigType.OFFER, "u2", some "u1", Payload.sdp 4⟩).sent =
        [⟨SigType.ANSWER, "u1", some "u2", Payload.sdp (mkAnswer 4)⟩]) ∧
    handleSignal wCallSt ⟨SigType.OFFER, "u9", some "u1", Payload.sdp 4⟩ = wCallSt ∧
    handleSignal (initSt "u1") ⟨SigType.OFFER, "u2", some "u1", Payload.sdp 4⟩ =
      { initSt "u1" with incomingCall := some ⟨"u2", 4⟩ } := by
  refine ⟨?_, ?_, ?_⟩
  · have h := (offer_routing wCallSt "u2" 4 (by decide)).1 rfl (by decide) rfl
      Conn.fresh (by decide)
    simpa [wCallSt, initSt, pcKeys] using h
  · exact (offer_routing wCallSt "u9" 4 (by decide)).2.1 rfl (by decide)
  · exact (offer_routing (initSt "u1") "u2" 4 (by decide)).2.2 rfl

/-- `wireConnection` only registers a connection and sends an offer. -/
@[simp] theorem wireConnection_isMicOn (s : St) (stream rid) :
    (wireConnection s stream rid).isMicOn = s.isMicOn := by
  unfold wireConnection; simp

@[simp] theorem wireConnection_isCameraOn (s : St) (stream rid) :
    (wireConnection s stream rid).isCameraOn = s.isCameraOn := by
  unfold wireConnection; simp

@[simp] theorem wireConnection_isScreenSharing (s : St) (stream rid) :
    (wireConnection s stream rid).isScreenSharing = s.isScreenSharing := by
  unfold wireConnection; simp

@[simp] theorem wireConnection_localStream (s : St) (stream rid) :
    (wireConnection s stream rid).localStream = s.localStream := by
  unfold wireConnection; simp

@[simp] theorem wireConnection_localVideoStream (s : St) (stream rid) :
    (wireConnection s stream rid).localVideoStream = s.localVideoStream := by
  unfold wireConnection; simp

@[simp] theorem wireConnection_localAudioStream (s : St) (stream rid) :
    (wireConnection s stream rid).localAudioStream = s.localAudioStream := by
  unfold wireConnection; simp

@[simp] theorem wireConnection_trackHeap (s : St) (stream rid) :
    (wireConnection s stream rid).trackHeap = s.trackHeap := by
  unfold wireConnection; simp

@[simp] theorem wireConnection_isInCall (s : St) (stream rid) :
    (wireConnection s stream rid).isInCall = s.isInCall := by
  unfold wireConnection; simp

@[simp] theorem wireConnection_activeCallData (s : St) (stream rid) :
    (wireConnection s stream rid).activeCallData = s.activeCallData := by
  unfold wireConnection; simp

@[simp] theorem wireConnection_incomingCall (s : St) (stream rid) :
    (wireConnection s stream rid).incomingCall = s.incomingCall := by
  unfold wireConnection; simp

/-- The per-recipient wiring loop touches only the registry and the
`sent` log. -/
theorem wireFold_proj (ids : List String) (stream : Stream) (s : St) :
    (ids.foldl (fun acc rid => wireConnection acc stream rid) s).isMicOn = s.isMicOn ∧
    (ids.foldl (fun acc rid => wireConnection acc stream rid) s).isCameraOn = s.isCameraOn ∧
    (ids.foldl (fun acc rid => wireConnection acc stream rid) s).localStream = s.localStream ∧
    (ids.foldl (fun acc rid => wireConnection acc stream rid) s).trackHeap = s.trackHeap ∧
    (ids.foldl (fun acc rid => wireConnection acc stream rid) s).isInCall = s.isInCall ∧
    (ids.foldl (fun acc rid => wireConnection acc stream rid) s).activeCallData = s.activeCallData ∧
    (ids.foldl (fun acc rid => wireConnection acc stream rid) s).incomingCall = s.incomingCall ∧
    (ids.foldl (fun acc rid => wireConnection acc stream rid) s).isScreenSharing = s.isScreenSharing ∧
    (ids.foldl (fun acc rid => wireConnection acc stream rid) s).localVideoStream = s.localVideoStream := by
  induction ids generalizing s with
  | nil => exact ⟨rfl, rfl, rfl, rfl, rfl, rfl, rfl, rfl, rfl⟩
  | cons rid rest ih =>
    simp only [List.foldl_cons]
    obtain ⟨h1, h2, h3, h4, h5, h6, h7, h8, h9⟩ := ih (wireConnection s stream rid)
    simp [h1, h2, h3, h4, h5, h6, h7, h8, h9]

/-- C4: a call started with `startCall`/`startGroupCall` (acquiring its
stream) or answered with `acceptIncomingCall` begins muted: `isMicOn`
is false and every audio track of the acquired local stream has
`enabled = false`. -/
theorem call_starts_muted (s : St) (ids : List String) (rid : String) (tid : Nat)
    (ic : IncomingCall) :
    (startCall s rid (some tid) = startGroupCall s [rid] (some tid)) ∧
    (s.localStream = none → ids ≠ [] →
      (startGroupCall s ids (some tid)).isMicOn = false ∧
      (startGroupCall s ids (some tid)).localStream = some [tid] ∧
      (∀ t ∈ (startGroupCall s ids (some tid)).localStream.getD [],
        ∃ dd, heapGet (startGroupCall s ids (some tid)).trackHeap t = some dd ∧
          dd.kind = TrackKind.audio ∧ dd.enabled = false)) ∧
    (s.incomingCall = some ic →
      (acceptIncomingCall s (some tid)).isMicOn = false ∧
      (acceptIncomingCall s (some tid)).localStream = some [tid] ∧
      (∀ t ∈ (acceptIncomingCall s (some tid)).localStream.getD [],
        ∃ dd, heapGet (acceptIncomingCall s (some tid)).trackHeap t = some dd ∧
          dd.kind = TrackKind.audio ∧ dd.enabled = false)) := by
  refine ⟨rfl, ?_, ?_⟩
  · intro hls hne
    unfold startGroupCall
    have hne' : ids.isEmpty = false := by
      cases ids with
      | nil => exact absurd rfl hne
      | cons a l => rfl
    simp only [hne', Bool.false_eq_true, if_false, hls]
    obtain ⟨h1, _, h3, h4, _, _, _⟩ := wireFold_proj ids [tid]
      { s with trackHeap := heapAdd s.trackHeap tid ⟨TrackKind.audio, false, true, false⟩,
               isMicOn := false, isCameraOn := false, localStream := some [tid],
               isInCall := true, activeCallData := some ids }
    refine ⟨h1, h3, ?_⟩
    intro t ht
    rw [h3] at ht
    simp only [Option.getD_some, List.mem_singleton] at ht
    subst ht
    rw [h4]
    exact ⟨⟨TrackKind.audio, false, true, false⟩, by simp [heapAdd, heapGet], rfl, rfl⟩
  · intro hic
    unfold acceptIncomingCall
    simp only [hic]
    refine ⟨by simp, by simp, ?_⟩
    intro t ht
    simp only [sendSignal_localStream, Option.getD_some] at ht
    simp only [List.mem_singleton] at ht
    subst ht
    rw [sendSignal_trackHeap]
    exact ⟨⟨TrackKind.audio, false, true, false⟩, by simp [heapAdd, heapGet], rfl, rfl⟩

/-- C4 witness: `u1` starts a group call to `u2` and, in the ringing
state, accepts an incoming call; both begin muted. -/
theorem call_starts_muted_witness :
    ((initSt "u1").localStream = none ∧
      (startGroupCall (initSt "u1") ["u2"] (some 1)).isMicOn = false ∧
      (startGroupCall (initSt "u1") ["u2"] (some 1)).localStream = some [1]) ∧
    (wRingSt.incomingCall = some ⟨"u2", 5⟩ ∧
      (acceptIncomingCall wRingSt (some 1)).isMicOn = false ∧
      (acceptIncomingCall wRingSt (some 1)).localStream = some [1]) := by
  have h := call_starts_muted (initSt "u1") ["u2"] "u2" 1 ⟨"u2", 5⟩
  have h2 := call_starts_muted wRingSt ["u2"] "u2" 1 ⟨"u2", 5⟩
  obtain ⟨hm, hl, _⟩ := h.2.1 rfl (by decide)
  obtain ⟨hm2, hl2, _⟩ := h2.2.2 rfl
  exact ⟨⟨rfl, hm, hl⟩, ⟨rfl, hm2, hl2⟩⟩

/-- Flipping `enabled` flags, seen through heap lookup. -/
theorem heapGet_heapSetEnabled (h : TrackHeap) (ids : List Nat) (b : Bool) (t : Nat) :
    heapGet (heapSetEnabled h ids b) t =
      (heapGet h t).map (fun d => if t ∈ ids then { d with enabled := b } else d) := by
  induction h with
  | nil => rfl
  | cons p rest ih =>
    simp only [heapSetEnabled, List.map_cons] at *
    by_cases hm : p.1 ∈ ids
    · simp only [hm, if_true]
      by_cases hk : (p.1 == t) = true
      · have ht : p.1 = t := by simpa using hk
        subst ht
        simp [heapGet, hm]
      · simp only [heapGet, hk, Bool.false_eq_true, if_false]
        exact ih
    · simp only [hm, if_false]
      by_cases hk : (p.1 == t) = true
      · have ht : p.1 = t := by simpa using hk
        subst ht
        simp [heapGet, hm]
      · simp only [heapGet, hk, Bool.false_eq_true, if_false]
        exact ih

/-- Flipping `enabled` flags never changes a track's kind. -/
theorem kindOf_heapSetEnabled (h : TrackHeap) (ids : List Nat) (b : Bool) (t : Nat) :
    kindOf (heapSetEnabled h ids b) t = kindOf h t := by
  unfold kindOf
  rw [heapGet_heapSetEnabled]
  cases heapGet h t with
  | none => rfl
  | some d =>
    simp only [Option.map_some', Option.map_map]
    split <;> rfl

/-- Flipping `enabled` flags never changes a track's `readyState`. -/
theorem isLiveTrack_heapSetEnabled (h : TrackHeap) (ids : List Nat) (b : Bool) :
    isLiveTrack (heapSetEnabled h ids b) = isLiveTrack h := by
  funext t
  unfold isLiveTrack
  rw [heapGet_heapSetEnabled]
  cases heapGet h t with
  | none => rfl
  | some d =>
    simp only [Option.map_some']
    split <;> rfl

/-- `getAudioTracks()` is stable under `enabled` flips. -/
theorem audioTracksOf_heapSetEnabled (h : TrackHeap) (ids : List Nat) (b : Bool) (st : Stream) :
    audioTracksOf (heapSetEnabled h ids b) st = audioTracksOf h st := by
  unfold audioTracksOf
  apply List.filter_congr
  intro t _
  rw [kindOf_heapSetEnabled]

/-- Sender lookup by kind is stable under `enabled` flips. -/
theorem findSenderIdx_heapSetEnabled (h : TrackHeap) (ids : List Nat) (b : Bool)
    (senders : List SenderSlot) (k : TrackKind) :
    findSenderIdx (heapSetEnabled h ids b) senders k = findSenderIdx h senders k := by
  induction senders with
  | nil => rfl
  | cons sd rest ih =>
    unfold findSenderIdx
    cases sd.track with
    | none => rw [ih]
    | some tid => simp [kindOf_heapSetEnabled, ih]

/-- The audio-sender fix-up is stable under `enabled` flips. -/
theorem fixAudioSender_heapSetEnabled (h : TrackHeap) (ids : List Nat) (b : Bool)
    (pc : Conn) (a : Nat) (add : Bool) :
    fixAudioSender (heapSetEnabled h ids b) pc a add = fixAudioSender h pc a add := by
  unfold fixAudioSender
  rw [findSenderIdx_heapSetEnabled]

/-- C5: once an audio stream exists, `toggleMic` only flips the
`enabled` flag of its audio tracks and the `isMicOn` flag: no signal is
sent (in particular no OFFER / renegotiation), every peer connection -
senders and their track identities included - is untouched, and the
composed preview stream is not recomputed. -/
theorem toggleMic_no_renegotiation (s : St) (ast : Stream) (a : Nat) (mic : Option Nat)
    (hast : s.localAudioStream = some ast)
    (ha : ((audioTracksOf s.trackHeap ast).find? (isLiveTrack s.trackHeap)).orElse
        (fun _ => (audioTracksOf s.trackHeap ast).head?) = some a)
    (hpcs : ∀ p ∈ s.pcs, ∃ i sd,
      findSenderIdx s.trackHeap p.2.senders TrackKind.audio = some i ∧
      p.2.senders.get? i = some sd ∧ sd.track = some a) :
    (toggleMic s mic).sent = s.sent ∧
    (toggleMic s mic).localStream = s.localStream ∧
    (toggleMic s mic).pcs = s.pcs ∧
    (toggleMic s mic).isMicOn = !s.isMicOn ∧
    (toggleMic s mic).trackHeap =
      heapSetEnabled s.trackHeap (audioTracksOf s.trackHeap ast) (!s.isMicOn) := by
  have hfix : ∀ p ∈ s.pcs, fixAudioSender s.trackHeap p.2 a true = p.2 := by
    intro p hp
    obtain ⟨i, sd, hfind, hget, htrack⟩ := hpcs p hp
    unfold fixAudioSender
    simp only [hfind, hget, htrack]
    simp
  cases hmic : s.isMicOn with
  | true =>
    simp [toggleMic, hast, hmic]
  | false =>
    simp only [toggleMic, hast, hmic, Bool.not_false, if_true]
    rw [isLiveTrack_heapSetEnabled, ha]
    refine ⟨rfl, rfl, ?_, rfl, rfl⟩
    show s.pcs.map (fun p =>
      (p.1, fixAudioSender (heapSetEnabled s.trackHeap (audioTracksOf s.trackHeap ast) true)
        p.2 a true)) = s.pcs
    calc s.pcs.map (fun p =>
          (p.1, fixAudioSender (heapSetEnabled s.trackHeap (audioTracksOf s.trackHeap ast) true)
            p.2 a true))
        = s.pcs.map (fun p => p) := by
          apply List.map_congr_left
          intro p hp
          rw [fixAudioSender_heapSetEnabled, hfix p hp]
      _ = s.pcs := by simp

/-- C5 witness: a live muted audio track attached to `u2`'s sender;
unmuting flips only flags. -/
theorem toggleMic_no_renegotiation_witness :
    wMicSt.localAudioStream = some [1] ∧
    (toggleMic wMicSt none).sent = wMicSt.sent ∧
    (toggleMic wMicSt none).localStream = wMicSt.localStream ∧
    (toggleMic wMicSt none).pcs = wMicSt.pcs ∧
    (toggleMic wMicSt none).isMicOn = true := by
  have h := toggleMic_no_renegotiation wMicSt [1] 1 none rfl (by decide)
    (by
      intro p hp
      simp only [wMicSt, wCallSt, initSt, List.mem_singleton] at hp
      subst hp
      exact ⟨0, ⟨some 1⟩, by decide, rfl, rfl⟩)
  exact ⟨rfl, h.1, h.2.1, h.2.2.1, h.2.2.2.1⟩

/-- `missedCallCheck` only touches the store logs and the incoming-call
record. -/
theorem missedCallCheck_proj (s : St) (x : String) :
    (missedCallCheck s x).pcs = s.pcs ∧
    (missedCallCheck s x).remoteStreams = s.remoteStreams ∧
    (missedCallCheck s x).activeCallData = s.activeCallData ∧
    (missedCallCheck s x).closedLog = s.closedLog ∧
    (missedCallCheck s x).isInCall = s.isInCall ∧
    (missedCallCheck s x).localStream = s.localStream ∧
    (missedCallCheck s x).localAudioStream = s.localAudioStream ∧
    (missedCallCheck s x).localVideoStream = s.localVideoStream ∧
    (missedCallCheck s x).trackHeap = s.trackHeap := by
  unfold missedCallCheck
  cases h : s.incomingCall with
  | none => exact ⟨rfl, rfl, rfl, rfl, rfl, rfl, rfl, rfl, rfl⟩
  | some ic =>
    by_cases hb : (ic.callerId == x) = true <;>
      simp [hb]

/-- A key present among an association list's keys has a lookup value. -/
theorem lookupL_isSome_of_mem_keys {α : Type} (m : List (String × α)) (k : String)
    (h : k ∈ m.map (fun p => p.1)) : ∃ v, lookupL m k = some v := by
  induction m with
  | nil => simp at h
  | cons p rest ih =>
    by_cases hk : (p.1 == k) = true
    · exact ⟨p.2, by simp [lookupL, hk]⟩
    · have : k ∈ rest.map (fun q => q.1) := by
        rcases List.mem_cons.mp h with h1 | h1
        · exact absurd (by simp [h1]) hk
        · exact h1
      obtain ⟨v, hv⟩ := ih this
      exact ⟨v, by simp [lookupL, hk, hv]⟩

/-- What `handleRemoteHangup` does when the sender is a registered
connection inside a live call: close-and-deregister that one
connection, drop the remote stream, shrink the membership, and tear the
whole session down when the membership empties. -/
theorem handleRemoteHangup_spec (s : St) (x : String) (l : List String) (pc : Conn)
    (hacd : s.activeCallData = some l) (hpc : lookupL s.pcs x = some pc) :
    (l.filter (fun id => id != x) ≠ [] →
      (handleRemoteHangup s x).pcs = eraseL s.pcs x ∧
      (handleRemoteHangup s x).closedLog = s.closedLog ++ [x] ∧
      (handleRemoteHangup s x).remoteStreams = eraseL s.remoteStreams x ∧
      (handleRemoteHangup s x).activeCallData = some (l.filter (fun id => id != x)) ∧
      (handleRemoteHangup s x).isInCall = s.isInCall ∧
      (handleRemoteHangup s x).localStream = s.localStream) ∧
    (l.filter (fun id => id != x) = [] →
      (handleRemoteHangup s x).pcs = [] ∧
      (handleRemoteHangup s x).isInCall = false ∧
      (handleRemoteHangup s x).localStream = none ∧
      (handleRemoteHangup s x).localAudioStream = none ∧
      (handleRemoteHangup s x).localVideoStream = none ∧
      (handleRemoteHangup s x).activeCallData = none ∧
      (handleRemoteHangup s x).remoteStreams = [] ∧
      (handleRemoteHangup s x).closedLog =
        s.closedLog ++ [x] ++ (eraseL s.pcs x).map (fun p => p.1) ∧
      (handleRemoteHangup s x).trackHeap =
        heapStop (heapStop s.trackHeap (s.localAudioStream.getD []))
          (s.localVideoStream.getD [])) := by
  constructor
  · intro hne
    unfold handleRemoteHangup
    simp only [hpc, hacd]
    have : (l.filter (fun id => id != x)).isEmpty = false := by
      cases hc : l.filter (fun id => id != x) with
      | nil => exact absurd hc hne
      | cons a rest => rfl
    simp [this]
  · intro hemp
    unfold handleRemoteHangup
    simp only [hpc, hacd]
    have : (l.filter (fun id => id != x)).isEmpty = true := by
      rw [hemp]; rfl
    simp [this, cleanupCall]

/-- C6: a HANGUP from a current participant closes and deregisters
exactly that participant's connection, removes their remote-stream
entry and their membership; if the membership empties, the session is
fully torn down to idle (every connection closed, local streams
stopped and cleared, `isInCall` false). -/
theorem remote_hangup_participant_removal (s : St) (sender : String) (pl : Payload)
    (l : List String)
    (hsender : sender ≠ s.me)
    (hacd : s.activeCallData = some l)
    (hpc : sender ∈ pcKeys s) :
    (l.filter (fun id => id != sender) ≠ [] →
      (handleSignal s ⟨SigType.HANGUP, sender, some s.me, pl⟩).pcs = eraseL s.pcs sender ∧
      (handleSignal s ⟨SigType.HANGUP, sender, some s.me, pl⟩).closedLog = s.closedLog ++ [sender] ∧
      (handleSignal s ⟨SigType.HANGUP, sender, some s.me, pl⟩).remoteStreams =
        eraseL s.remoteStreams sender ∧
      (handleSignal s ⟨SigType.HANGUP, sender, some s.me, pl⟩).activeCallData =
        some (l.filter (fun id => id != sender))) ∧
    (l.filter (fun id => id != sender) = [] →
      (handleSignal s ⟨SigType.HANGUP, sender, some s.me, pl⟩).pcs = [] ∧
      (handleSignal s ⟨SigType.HANGUP, sender, some s.me, pl⟩).isInCall = false ∧
      (handleSignal s ⟨SigType.HANGUP, sender, some s.me, pl⟩).localStream = none ∧
      (handleSignal s ⟨SigType.HANGUP, sender, some s.me, pl⟩).localAudioStream = none ∧
      (handleSignal s ⟨SigType.HANGUP, sender, some s.me, pl⟩).localVideoStream = none ∧
      (handleSignal s ⟨SigType.HANGUP, sender, some s.me, pl⟩).activeCallData = none ∧
      (handleSignal s ⟨SigType.HANGUP, sender, some s.me, pl⟩).remoteStreams = [] ∧
      (handleSignal s ⟨SigType.HANGUP, sender, some s.me, pl⟩).closedLog =
        s.closedLog ++ [sender] ++ (eraseL s.pcs sender).map (fun p => p.1) ∧
      (handleSignal s ⟨SigType.HANGUP, sender, some s.me, pl⟩).trackHeap =
        heapStop (heapStop s.trackHeap (s.localAudioStream.getD []))
          (s.localVideoStream.getD [])) := by
  have hsender' : (sender == s.me) = false := by simpa using hsender
  have hfilter : handleSignal s ⟨SigType.HANGUP, sender, some s.me, pl⟩ =
      handleRemoteHangup (missedCallCheck s sender) sender := by
    unfold handleSignal
    simp [hsender']
  obtain ⟨m1, m2, m3, m4, m5, m6, m7, m8, m9⟩ := missedCallCheck_proj s sender
  obtain ⟨pc, hpcv⟩ := lookupL_isSome_of_mem_keys s.pcs sender (by simpa [pcKeys] using hpc)
  have hspec := handleRemoteHangup_spec (missedCallCheck s sender) sender l pc
    (by rw [m3, hacd]) (by rw [m1, hpcv])
  constructor
  · intro hne
    obtain ⟨a1, a2, a3, a4, _, _⟩ := hspec.1 hne
    rw [hfilter]
    rw [m1] at a1
    rw [m4] at a2
    rw [m2] at a3
    exact ⟨a1, a2, a3, a4⟩
  · intro hemp
    obtain ⟨b1, b2, b3, b4, b5, b6, b7, b8, b9⟩ := hspec.2 hemp
    rw [hfilter]
    rw [m1, m4] at b8
    rw [m9, m7, m8] at b9
    exact ⟨b1, b2, b3, b4, b5, b6, b7, b8, b9⟩

/-- C6 witness: `u2` (sole participant) hangs up, tearing the session
down to idle. -/
theorem remote_hangup_participant_removal_witness :
    (handleSignal wCallSt ⟨SigType.HANGUP, "u2", some "u1", Payload.empty⟩).pcs = [] ∧
    (handleSignal wCallSt ⟨SigType.HANGUP, "u2", some "u1", Payload.empty⟩).isInCall = false ∧
    (handleSignal wCallSt ⟨SigType.HANGUP, "u2", some "u1", Payload.empty⟩).activeCallData = none ∧
    (handleSignal wCallSt ⟨SigType.HANGUP, "u2", some "u1", Payload.empty⟩).closedLog = ["u2"] := by
  have h := (remote_hangup_participant_removal wCallSt "u2" Payload.empty ["u2"]
    (by decide) rfl (by decide)).2 (by decide)
  refine ⟨h.1, h.2.1, h.2.2.2.2.2.1, ?_⟩
  have := h.2.2.2.2.2.2.2.1
  simpa [wCallSt, initSt, eraseL] using this

/-! ### Invariant machinery for C3 -/

theorem sameView_rfl (s : St) : SameView s s :=
  ⟨rfl, rfl, rfl, rfl, rfl, rfl, rfl⟩

theorem sameView_trans {a b c : St} (h1 : SameView a b) (h2 : SameView b c) : SameView a c := by
  obtain ⟨x1, x2, x3, x4, x5, x6, x7⟩ := h1
  obtain ⟨y1, y2, y3, y4, y5, y6, y7⟩ := h2
  exact ⟨y1.trans x1, y2.trans x2, y3.trans x3, y4.trans x4, y5.trans x5,
         y6.trans x6, y7.trans x7⟩

theorem Inv_sameView {a b : St} (hv : SameView a b) (h : Inv a) : Inv b := by
  obtain ⟨e1, e2, e3, e4, e5, e6, e7⟩ := hv
  unfold Inv participants at *
  rw [e1, e2, e3, e4, e5, e6, e7]
  exact h

/-- Keys of an association list are unchanged by a per-entry value
rewrite. -/
theorem keys_map_snd {α : Type} (m : List (String × α)) (g : String × α → α) :
    (m.map (fun p => (p.1, g p))).map (fun p => p.1) = m.map (fun p => p.1) := by
  rw [List.map_map]
  rfl

/-- Keys after deleting one key. -/
theorem keys_eraseL {α : Type} (m : List (String × α)) (k : String) :
    (eraseL m k).map (fun p => p.1) = (m.map (fun p => p.1)).filter (fun x => x != k) := by
  unfold eraseL
  induction m with
  | nil => rfl
  | cons p rest ih =>
    by_cases h : (p.1 != k) = true <;> simp [h, ih]

/-- Membership among the keys survives `setL`. -/
theorem mem_keys_setL {α : Type} (m : List (String × α)) (k x : String) (v : α)
    (h : x ∈ m.map (fun p => p.1)) : x ∈ (setL m k v).map (fun p => p.1) := by
  unfold setL
  split
  · rw [List.map_map]
    rcases List.mem_map.mp h with ⟨p, hp, hpx⟩
    apply List.mem_map.mpr
    refine ⟨p, hp, ?_⟩
    simp only [Function.comp_apply]
    split
    · rename_i hk
      rw [← hpx]
      exact (beq_iff_eq.mp hk).symm
    · exact hpx
  · simp [h]

/-- The written key is among the keys after `setL`. -/
theorem mem_keys_setL_self {α : Type} (m : List (String × α)) (k : String) (v : α) :
    k ∈ (setL m k v).map (fun p => p.1) := by
  unfold setL
  split
  · rename_i hfind
    obtain ⟨p, hp, hpk⟩ := List.find?_isSome.mp hfind
    rw [List.map_map]
    apply List.mem_map.mpr
    refine ⟨p, hp, ?_⟩
    simp only [Function.comp_apply]
    simp [hpk]
  · simp

/-- A successful lookup puts the key among the keys. -/
theorem mem_keys_of_lookupL {α : Type} (m : List (String × α)) (k : String) (v : α)
    (h : lookupL m k = some v) : k ∈ m.map (fun p => p.1) := by
  induction m with
  | nil => simp [lookupL] at h
  | cons p rest ih =>
    by_cases hk : (p.1 == k) = true
    · have h1 : p.1 = k := beq_iff_eq.mp hk
      simp [h1]
    · rw [lookupL] at h
      simp only [hk, Bool.false_eq_true, if_false] at h
      simp [ih h]

/-- Teardown establishes the invariant outright. -/
theorem cleanupCall_inv (s : St) : Inv (cleanupCall s) := by
  unfold Inv cleanupCall participants pcKeys
  simp

/-- `sendSignal` leaves the invariant's view unchanged. -/
theorem sendSignal_sameView (s : St) (ty r pl) : SameView s (sendSignal s ty r pl) :=
  ⟨sendSignal_isCameraOn s ty r pl, sendSignal_isScreenSharing s ty r pl,
   sendSignal_isInCall s ty r pl, sendSignal_activeCallData s ty r pl,
   sendSignal_localStream s ty r pl, sendSignal_localVideoStream s ty r pl,
   pcKeys_sendSignal s ty r pl⟩

/-- `updateConn` leaves the invariant's view unchanged. -/
theorem updateConn_sameView (s : St) (rid f) : SameView s (updateConn s rid f) :=
  ⟨rfl, rfl, rfl, rfl, rfl, rfl, pcKeys_updateConn s rid f⟩

/-- `renegotiate` leaves the invariant's view unchanged. -/
theorem renegotiate_sameView (s : St) (g : Option Stream) :
    SameView s (renegotiate s g) := by
  unfold renegotiate
  cases g with
  | none => exact sameView_rfl s
  | some st =>
    have hfold : ∀ (l : List (String × Conn)) (acc : St),
        SameView acc (l.foldl (fun acc (p : String × Conn) =>
          sendSignal (updateConn acc p.1 (fun c => { c with localDesc := some mkOffer }))
            SigType.OFFER (some p.1) (Payload.sdp mkOffer)) acc) := by
      intro l
      induction l with
      | nil => exact fun acc => sameView_rfl acc
      | cons p rest ih =>
        intro acc
        simp only [List.foldl_cons]
        refine sameView_trans ?_ (ih _)
        exact sameView_trans (updateConn_sameView acc p.1 _) (sendSignal_sameView _ _ _ _)
    exact hfold s.pcs s

@[simp] theorem renegotiate_isCameraOn (s : St) (g) :
    (renegotiate s g).isCameraOn = s.isCameraOn := (renegotiate_sameView s g).1

@[simp] theorem renegotiate_isScreenSharing (s : St) (g) :
    (renegotiate s g).isScreenSharing = s.isScreenSharing := (renegotiate_sameView s g).2.1

@[simp] theorem renegotiate_isInCall (s : St) (g) :
    (renegotiate s g).isInCall = s.isInCall := (renegotiate_sameView s g).2.2.1

@[simp] theorem renegotiate_activeCallData (s : St) (g) :
    (renegotiate s g).activeCallData = s.activeCallData := (renegotiate_sameView s g).2.2.2.1

@[simp] theorem renegotiate_localStream (s : St) (g) :
    (renegotiate s g).localStream = s.localStream := (renegotiate_sameView s g).2.2.2.2.1

@[simp] theorem renegotiate_localVideoStream (s : St) (g) :
    (renegotiate s g).localVideoStream = s.localVideoStream :=
  (renegotiate_sameView s g).2.2.2.2.2.1

@[simp] theorem renegotiate_pcKeys (s : St) (g) :
    pcKeys (renegotiate s g) = pcKeys s := (renegotiate_sameView s g).2.2.2.2.2.2

@[simp] theorem composeLocalStream_isCameraOn (s : St) :
    (composeLocalStream s).isCameraOn = s.isCameraOn := rfl

@[simp] theorem composeLocalStream_isScreenSharing (s : St) :
    (composeLocalStream s).isScreenSharing = s.isScreenSharing := rfl

@[simp] theorem composeLocalStream_isInCall (s : St) :
    (composeLocalStream s).isInCall = s.isInCall := rfl

@[simp] theorem composeLocalStream_activeCallData (s : St) :
    (composeLocalStream s).activeCallData = s.activeCallData := rfl

@[simp] theorem composeLocalStream_localStream (s : St) :
    (composeLocalStream s).localStream =
      some (s.localAudioStream.getD [] ++ s.localVideoStream.getD []) := rfl

@[simp] theorem composeLocalStream_localVideoStream (s : St) :
    (composeLocalStream s).localVideoStream = s.localVideoStream := rfl

@[simp] theorem composeLocalStream_pcs (s : St) :
    (composeLocalStream s).pcs = s.pcs := rfl

@[simp] theorem pcKeys_composeLocalStream (s : St) :
    pcKeys (composeLocalStream s) = pcKeys s := rfl

/-- The state component of `attachToAll` only rewrites connection
values. -/
@[simp] theorem attachToAll_keys (s : St) (k : TrackKind) (tid : Nat) :
    pcKeys (attachToAll s k tid).1 = pcKeys s := by
  unfold attachToAll pcKeys
  simp only [List.map_map]
  rfl

@[simp] theorem attachToAll_isCameraOn (s : St) (k tid) :
    (attachToAll s k tid).1.isCameraOn = s.isCameraOn := rfl

@[simp] theorem attachToAll_isScreenSharing (s : St) (k tid) :
    (attachToAll s k tid).1.isScreenSharing = s.isScreenSharing := rfl

@[simp] theorem attachToAll_isInCall (s : St) (k tid) :
    (attachToAll s k tid).1.isInCall = s.isInCall := rfl

@[simp] theorem attachToAll_activeCallData (s : St) (k tid) :
    (attachToAll s k tid).1.activeCallData = s.activeCallData := rfl

@[simp] theorem attachToAll_localStream (s : St) (k tid) :
    (attachToAll s k tid).1.localStream = s.localStream := rfl

@[simp] theorem attachToAll_localVideoStream (s : St) (k tid) :
    (attachToAll s k tid).1.localVideoStream = s.localVideoStream := rfl

@[simp] theorem attachToAll_localAudioStream (s : St) (k tid) :
    (attachToAll s k tid).1.localAudioStream = s.localAudioStream := rfl

@[simp] theorem attachToAll_trackHeap (s : St) (k tid) :
    (attachToAll s k tid).1.trackHeap = s.trackHeap := rfl

/-- `stopScreenSharing` on an empty registry or missing video stream is
the identity (the guard at store.tsx:1445). -/
theorem stopScreenSharing_noop (s : St) (cam : Option Nat)
    (h : s.pcs = [] ∨ s.localVideoStream = none) : stopScreenSharing s cam = s := by
  rcases h with h | h
  · unfold stopScreenSharing
    cases hv : s.localVideoStream with
    | none => rfl
    | some vs => simp [h]
  · simp [stopScreenSharing, h]

/-- Keys of a state whose registry entries were rewritten in place. -/
theorem pcKeys_pcsMap (s : St) (f : String × Conn → Conn) :
    pcKeys { s with pcs := s.pcs.map (fun p => (p.1, f p)) } = pcKeys s :=
  keys_map_snd s.pcs f

/-- Step 1 of `stopScreenSharing` keeps the registry keys, the call
data, `isInCall`, the local preview and audio streams and the sharing
flag, and its video slot is present exactly as before unless the camera
was restored (then it holds the fresh camera track). -/
theorem sssStep1_proj (s : St) (cam : Option Nat) :
    pcKeys (sssStep1 s cam).1 = pcKeys s ∧
    (sssStep1 s cam).1.activeCallData = s.activeCallData ∧
    (sssStep1 s cam).1.isInCall = s.isInCall ∧
    (sssStep1 s cam).1.localStream = s.localStream ∧
    (sssStep1 s cam).1.localAudioStream = s.localAudioStream ∧
    (sssStep1 s cam).1.isScreenSharing = s.isScreenSharing ∧
    ((sssStep1 s cam).2.2.2 = true → (sssStep1 s cam).1.localVideoStream.isSome = true) ∧
    ((sssStep1 s cam).2.2.2 = false → (sssStep1 s cam).1.localVideoStream = s.localVideoStream) := by
  unfold sssStep1
  by_cases hprev : s.prevCameraWasOn = true
  · rw [if_pos hprev]
    cases cam with
    | some tid =>
      refine ⟨?_, rfl, rfl, rfl, rfl, rfl, fun _ => rfl, fun h => absurd h (by simp)⟩
      show pcKeys (attachToAll
          { s with trackHeap := heapAdd s.trackHeap tid ⟨TrackKind.video, true, true, false⟩,
                   localVideoStream := some [tid], isCameraOn := true }
          TrackKind.video tid).1 = pcKeys s
      rw [attachToAll_keys]
      rfl
    | none =>
      exact ⟨keys_map_snd s.pcs _, rfl, rfl, rfl, rfl, rfl,
        fun h => absurd h (by simp), fun _ => rfl⟩
  · rw [if_neg hprev]
    exact ⟨keys_map_snd s.pcs _, rfl, rfl, rfl, rfl, rfl,
      fun h => absurd h (by simp), fun _ => rfl⟩

/-- The audio-sender repair leaves the invariant's view unchanged. -/
theorem sssAudioFix_sameView (s : St) (orig : Option Stream) :
    SameView s (sssAudioFix s orig) := by
  unfold sssAudioFix
  cases orig with
  | none => exact sameView_rfl s
  | some ast =>
    cases hfind : (audioTracksOf s.trackHeap ast).find? (isLiveTrack s.trackHeap) with
    | none =>
      simp only [hfind]
      exact sameView_rfl s
    | some a =>
      simp only [hfind]
      exact ⟨rfl, rfl, rfl, rfl, rfl, rfl, keys_map_snd s.pcs _⟩

/-- The invariant-relevant outputs of a `stopScreenSharing` that passes
its guard: the sharing flag is cleared, the registry keys, call data
and `isInCall` are unchanged, and the local preview and video streams
are present. -/
theorem stopScreenSharing_spec (s : St) (cam : Option Nat) (vs : Stream)
    (hvs : s.localVideoStream = some vs) (hpcs : s.pcs ≠ []) :
    (stopScreenSharing s cam).isScreenSharing = false ∧
    pcKeys (stopScreenSharing s cam) = pcKeys s ∧
    (stopScreenSharing s cam).activeCallData = s.activeCallData ∧
    (stopScreenSharing s cam).isInCall = s.isInCall ∧
    (stopScreenSharing s cam).localStream.isSome = true ∧
    (stopScreenSharing s cam).localVideoStream.isSome = true := by
  have hne : s.pcs.isEmpty = false := by
    cases hp : s.pcs with
    | nil => exact absurd hp hpcs
    | cons a b => rfl
  obtain ⟨p1, p2, p3, p4, p5, p6, p7, p8⟩ := sssStep1_proj s cam
  unfold stopScreenSharing
  rw [hvs]
  simp only [hne, Bool.false_eq_true, if_false]
  set s1 := (sssStep1 s cam).1 with hs1
  set restored := (sssStep1 s cam).2.2.2 with hres
  set screenIds := (videoTracksOf s1.trackHeap vs).filter (fun t => isScreenTrack s1.trackHeap t)
    with hscreen
  set s2 : St := { s1 with trackHeap := heapStop s1.trackHeap screenIds } with hs2
  set s3 := if restored then s2
            else { s2 with localVideoStream := some (vs.filter (fun t => !(screenIds.contains t))) }
    with hs3
  set s4 : St := { s3 with isScreenSharing := false } with hs4
  have hv5 := sssAudioFix_sameView s4 s.localAudioStream
  obtain ⟨q1, q2, q3, q4, q5, q6, q7⟩ := hv5
  set s5 := sssAudioFix s4 s.localAudioStream with hs5
  have h3acd : s3.activeCallData = s.activeCallData := by
    rw [hs3]; cases restored <;> simp [hs2, p2]
  have h3keys : pcKeys s3 = pcKeys s := by
    rw [hs3]; cases restored <;> simp [pcKeys, hs2] <;> exact p1
  have h3call : s3.isInCall = s.isInCall := by
    rw [hs3]; cases restored <;> simp [hs2, p3]
  have h3lvs : s3.localVideoStream.isSome = true := by
    rw [hs3]
    cases hr : restored with
    | true => simpa [hr, hs2] using p7 hr
    | false => simp [hr, hs2]
  refine ⟨?_, ?_, ?_, ?_, ?_, ?_⟩
  · simp only [sendSignal_isScreenSharing, apply_ite St.isScreenSharing,
      renegotiate_isScreenSharing, ite_self, composeLocalStream_isScreenSharing]
    rw [q2, hs4]
  · rw [pcKeys_sendSignal]
    have : ∀ b : Bool, pcKeys (if b then renegotiate (composeLocalStream s5) s.localStream
        else composeLocalStream s5) = pcKeys s5 := by
      intro b; cases b <;> simp
    rw [this, q7]
    show pcKeys s4 = pcKeys s
    rw [show pcKeys s4 = pcKeys s3 from rfl, h3keys]
  · simp only [sendSignal_activeCallData, apply_ite St.activeCallData,
      renegotiate_activeCallData, ite_self, composeLocalStream_activeCallData]
    rw [q4]
    show s4.activeCallData = s.activeCallData
    rw [show s4.activeCallData = s3.activeCallData from rfl, h3acd]
  · simp only [sendSignal_isInCall, apply_ite St.isInCall,
      renegotiate_isInCall, ite_self, composeLocalStream_isInCall]
    rw [q3]
    show s4.isInCall = s.isInCall
    rw [show s4.isInCall = s3.isInCall from rfl, h3call]
  · simp only [sendSignal_localStream, apply_ite St.localStream,
      renegotiate_localStream, ite_self, composeLocalStream_localStream]
    rfl
  · simp only [sendSignal_localVideoStream, apply_ite St.localVideoStream,
      renegotiate_localVideoStream, ite_self, composeLocalStream_localVideoStream]
    rw [q6]
    show s4.localVideoStream.isSome = true
    rw [show s4.localVideoStream = s3.localVideoStream from rfl]
    exact h3lvs

/-- Build the invariant from per-field facts about a state. -/
theorem Inv_of_fields (t : St)
    (hA : t.isCameraOn = true → t.isScreenSharing = false)
    (hB : t.isScreenSharing = true →
      pcKeys t ≠ [] ∧ t.localVideoStream.isSome ∧ t.activeCallData.isSome)
    (hC : ∀ x ∈ participants t, x ∈ pcKeys t)
    (hD : t.isInCall = true → t.localStream.isSome)
    (hE : pcKeys t ≠ [] → t.activeCallData.isSome) : Inv t := by
  refine ⟨?_, hB, hC, hD, hE⟩
  intro hx
  rw [hA hx.1] at hx
  exact absurd hx.2 (by simp)

/-- `composeLocalStream` preserves the invariant. -/
theorem composeLocalStream_inv (s : St) (h : Inv s) : Inv (composeLocalStream s) := by
  obtain ⟨a, b, c, d, e⟩ := h
  exact ⟨a, b, c, fun _ => rfl, e⟩

/-- Rewriting registry entries in place preserves the invariant. -/
theorem Inv_pcsMap (s : St) (f : String × Conn → Conn) (h : Inv s) :
    Inv { s with pcs := s.pcs.map (fun p => (p.1, f p)) } := by
  have hk := pcKeys_pcsMap s f
  obtain ⟨a, b, c, d, e⟩ := h
  refine ⟨a, ?_, ?_, d, ?_⟩
  · intro hs
    obtain ⟨b1, b2, b3⟩ := b hs
    exact ⟨by rw [hk]; exact b1, b2, b3⟩
  · intro x hx
    rw [hk]
    exact c x hx
  · rw [hk]
    exact e

/-- `toggleMic` preserves the invariant. -/
theorem toggleMic_inv (s : St) (mic : Option Nat) (h : Inv s) : Inv (toggleMic s mic) := by
  unfold toggleMic
  cases hast : s.localAudioStream with
  | none =>
    cases mic with
    | none => exact h
    | some tid =>
      exact Inv_sameView (renegotiate_sameView _ _)
        (composeLocalStream_inv _ (Inv_pcsMap _ _ h))
  | some ast =>
    dsimp only
    by_cases hm : (!s.isMicOn) = true
    · rw [if_pos hm]
      cases hfind : ((audioTracksOf s.trackHeap ast).find?
          (isLiveTrack (heapSetEnabled s.trackHeap (audioTracksOf s.trackHeap ast)
            (!s.isMicOn)))).orElse
          (fun _ => (audioTracksOf s.trackHeap ast).head?) with
      | none =>
        simp only [hfind]
        exact h
      | some a =>
        simp only [hfind]
        exact Inv_pcsMap _ _ h
    · rw [if_neg hm]
      exact h

/-- Installing a fresh camera track preserves the invariant, provided
screen sharing is off in the input state. -/
theorem installVideoTrack_inv (t : St) (tid : Nat) (stale : Option Stream)
    (hscreen : t.isScreenSharing = false)
    (hC : ∀ x ∈ participants t, x ∈ pcKeys t)
    (hE : pcKeys t ≠ [] → t.activeCallData.isSome) : Inv (installVideoTrack t tid stale) := by
  unfold installVideoTrack
  dsimp only
  apply Inv_sameView (renegotiate_sameView _ _)
  apply Inv_of_fields
  · intro _
    exact hscreen
  · intro hx
    have hx' : t.isScreenSharing = true := hx
    rw [hscreen] at hx'
    exact absurd hx' (by simp)
  · intro x hx
    have hx' : x ∈ participants t := hx
    have hmem := hC x hx'
    show x ∈ (t.pcs.map
      (fun p => (p.1, (attachTrack t.trackHeap p.2 TrackKind.video tid).1))).map (fun p => p.1)
    rw [keys_map_snd]
    exact hmem
  · intro _
    rfl
  · intro hne
    have hne' : pcKeys t ≠ [] := by
      intro hc
      apply hne
      show (t.pcs.map
        (fun p => (p.1, (attachTrack t.trackHeap p.2 TrackKind.video tid).1))).map (fun p => p.1) = []
      rw [keys_map_snd]
      exact hc
    exact hE hne'

/-- `toggleCamera` preserves the invariant. -/
theorem toggleCamera_inv (s : St) (cam ssc : Option Nat) (h : Inv s) :
    Inv (toggleCamera s cam ssc) := by
  unfold toggleCamera
  by_cases hcam : s.isCameraOn = true
  · rw [if_pos hcam]
    cases hlvs : s.localVideoStream with
    | none => exact h
    | some vs =>
      dsimp only
      have hss : s.isScreenSharing = false := by
        cases hs : s.isScreenSharing
        · rfl
        · exact absurd ⟨hcam, hs⟩ h.1
      apply composeLocalStream_inv
      apply Inv_of_fields
      · intro hx
        exact absurd hx (by simp)
      · intro hx
        have hx' : s.isScreenSharing = true := hx
        rw [hss] at hx'
        exact absurd hx' (by simp)
      · intro x hx
        have hx' : x ∈ participants s := hx
        have hmem := h.2.2.1 x hx'
        show x ∈ (s.pcs.map (fun p => (p.1, clearVideoSender
          (heapStop s.trackHeap ((videoTracksOf s.trackHeap vs).filter
            (fun t => !(isScreenTrack s.trackHeap t)))) p.2))).map (fun p => p.1)
        rw [keys_map_snd]
        exact hmem
      · exact h.2.2.2.1
      · intro hne
        have hne' : pcKeys s ≠ [] := by
          intro hc
          apply hne
          show (s.pcs.map (fun p => (p.1, clearVideoSender
            (heapStop s.trackHeap ((videoTracksOf s.trackHeap vs).filter
              (fun t => !(isScreenTrack s.trackHeap t)))) p.2))).map (fun p => p.1) = []
          rw [keys_map_snd]
          exact hc
        exact h.2.2.2.2 hne'
  · rw [if_neg hcam]
    cases cam with
    | none => exact h
    | some tid =>
      dsimp only
      by_cases hss : s.isScreenSharing = true
      · rw [if_pos hss]
        obtain ⟨hb1, hb2, hb3⟩ := h.2.1 hss
        obtain ⟨vs, hvs⟩ := Option.isSome_iff_exists.mp hb2
        have hpcsne : s.pcs ≠ [] := by
          intro hc
          exact hb1 (by unfold pcKeys; rw [hc]; rfl)
        have hspec := stopScreenSharing_spec
          { s with trackHeap := heapAdd s.trackHeap tid ⟨TrackKind.video, true, true, false⟩ }
          ssc vs hvs hpcsne
        apply installVideoTrack_inv
        · exact hspec.1
        · intro x hx
          have hx' : x ∈ participants s := by
            unfold participants at hx ⊢
            rw [hspec.2.2.1] at hx
            exact hx
          rw [hspec.2.1]
          exact h.2.2.1 x hx'
        · intro hne
          rw [hspec.2.1] at hne
          have he := h.2.2.2.2 hne
          rw [hspec.2.2.1]
          exact he
      · rw [if_neg hss]
        have hss' : s.isScreenSharing = false := by
          cases hx : s.isScreenSharing
          · rfl
          · exact absurd hx hss
        apply installVideoTrack_inv
        · exact hss'
        · exact h.2.2.1
        · exact h.2.2.2.2

/-- A conditional renegotiation leaves the invariant's view unchanged. -/
theorem iteRenegotiate_sameView (x : St) (g : Option Stream) (b : Bool) :
    SameView x (if b then renegotiate x g else x) := by
  cases b with
  | false => exact sameView_rfl x
  | true => exact renegotiate_sameView x g

/-- `toggleScreenShare` preserves the invariant. -/
theorem toggleScreenShare_inv (s : St) (scr ssc : Option Nat) (h : Inv s) :
    Inv (toggleScreenShare s scr ssc) := by
  unfold toggleScreenShare
  by_cases hempty : s.pcs.isEmpty = true
  · rw [if_pos hempty]
    exact h
  · rw [if_neg hempty]
    have hpcs : s.pcs ≠ [] := by
      intro hc
      apply hempty
      rw [hc]
      rfl
    have hkeysne : pcKeys s ≠ [] := by
      intro hc
      exact hpcs (List.map_eq_nil_iff.mp hc)
    by_cases hss : s.isScreenSharing = true
    · rw [if_pos hss]
      obtain ⟨hb1, hb2, hb3⟩ := h.2.1 hss
      obtain ⟨vs, hvs⟩ := Option.isSome_iff_exists.mp hb2
      have hspec := stopScreenSharing_spec s ssc vs hvs hpcs
      apply Inv_of_fields
      · intro _
        exact hspec.1
      · intro hx
        rw [hspec.1] at hx
        exact absurd hx (by simp)
      · intro x hx
        have hx' : x ∈ participants s := by
          unfold participants at hx ⊢
          rw [hspec.2.2.1] at hx
          exact hx
        rw [hspec.2.1]
        exact h.2.2.1 x hx'
      · intro _
        exact hspec.2.2.2.2.1
      · intro hne
        rw [hspec.2.1] at hne
        rw [hspec.2.2.1]
        exact h.2.2.2.2 hne
    · rw [if_neg hss]
      cases scr with
      | none => exact h
      | some tid =>
        dsimp only
        apply Inv_sameView (sendSignal_sameView _ _ _ _)
        apply Inv_sameView (iteRenegotiate_sameView _ _ _)
        apply composeLocalStream_inv
        have hk4 : pcKeys (attachToAll
            { s with trackHeap := heapAdd s.trackHeap tid ⟨TrackKind.video, true, true, true⟩,
                     prevCameraWasOn := s.isCameraOn, isCameraOn := false,
                     localVideoStream := some [tid] } TrackKind.video tid).1 = pcKeys s := by
          rw [attachToAll_keys]
          rfl
        cases hoc : (if s.isCameraOn = true then s.localVideoStream else none) with
        | none =>
          simp only [hoc]
          apply Inv_of_fields
          · intro hx
            exact absurd hx (by simp)
          · intro _
            refine ⟨?_, rfl, ?_⟩
            · show pcKeys (attachToAll
                { s with trackHeap := heapAdd s.trackHeap tid ⟨TrackKind.video, true, true, true⟩,
                         prevCameraWasOn := s.isCameraOn, isCameraOn := false,
                         localVideoStream := some [tid] } TrackKind.video tid).1 ≠ []
              rw [hk4]
              exact hkeysne
            · exact h.2.2.2.2 hkeysne
          · intro x hx
            have hx' : x ∈ participants s := hx
            show x ∈ pcKeys (attachToAll
              { s with trackHeap := heapAdd s.trackHeap tid ⟨TrackKind.video, true, true, true⟩,
                       prevCameraWasOn := s.isCameraOn, isCameraOn := false,
                       localVideoStream := some [tid] } TrackKind.video tid).1
            rw [hk4]
            exact h.2.2.1 x hx'
          · intro hic
            exact h.2.2.2.1 hic
          · intro _
            exact h.2.2.2.2 hkeysne
        | some oc =>
          simp only [hoc]
          apply Inv_of_fields
          · intro hx
            exact absurd hx (by simp)
          · intro _
            refine ⟨?_, rfl, ?_⟩
            · show pcKeys (attachToAll
                { s with trackHeap := heapAdd s.trackHeap tid ⟨TrackKind.video, true, true, true⟩,
                         prevCameraWasOn := s.isCameraOn, isCameraOn := false,
                         localVideoStream := some [tid] } TrackKind.video tid).1 ≠ []
              rw [hk4]
              exact hkeysne
            · exact h.2.2.2.2 hkeysne
          · intro x hx
            have hx' : x ∈ participants s := hx
            show x ∈ pcKeys (attachToAll
              { s with trackHeap := heapAdd s.trackHeap tid ⟨TrackKind.video, true, true, true⟩,
                       prevCameraWasOn := s.isCameraOn, isCameraOn := false,
                       localVideoStream := some [tid] } TrackKind.video tid).1
            rw [hk4]
            exact h.2.2.1 x hx'
          · intro hic
            exact h.2.2.2.1 hic
          · intro _
            exact h.2.2.2.2 hkeysne

/-- A standalone `stopScreenSharing` preserves the invariant. -/
theorem stopScreenSharing_inv (s : St) (cam : Option Nat) (h : Inv s) :
    Inv (stopScreenSharing s cam) := by
  cases hvs : s.localVideoStream with
  | none =>
    rw [stopScreenSharing_noop s cam (Or.inr hvs)]
    exact h
  | some vs =>
    by_cases hpc : s.pcs = []
    · rw [stopScreenSharing_noop s cam (Or.inl hpc)]
      exact h
    · have hspec := stopScreenSharing_spec s cam vs hvs hpc
      apply Inv_of_fields
      · intro _
        exact hspec.1
      · intro hx
        rw [hspec.1] at hx
        exact absurd hx (by simp)
      · intro x hx
        have hx' : x ∈ participants s := by
          unfold participants at hx ⊢
          rw [hspec.2.2.1] at hx
          exact hx
        rw [hspec.2.1]
        exact h.2.2.1 x hx'
      · intro _
        exact hspec.2.2.2.2.1
      · intro hne
        rw [hspec.2.1] at hne
        rw [hspec.2.2.1]
        exact h.2.2.2.2 hne

/-- Wiring one connection keeps every existing registry key. -/
theorem pcKeys_wireConnection_mem (s : St) (stream : Stream) (rid x : String)
    (hx : x ∈ pcKeys s) : x ∈ pcKeys (wireConnection s stream rid) := by
  unfold wireConnection
  rw [pcKeys_sendSignal]
  exact mem_keys_setL s.pcs rid x _ hx

/-- Wiring one connection registers its recipient. -/
theorem pcKeys_wireConnection_self (s : St) (stream : Stream) (rid : String) :
    rid ∈ pcKeys (wireConnection s stream rid) := by
  unfold wireConnection
  rw [pcKeys_sendSignal]
  exact mem_keys_setL_self s.pcs rid _

/-- After the wiring loop, old keys survive and every recipient is
registered. -/
theorem wireFold_keys (ids : List String) (stream : Stream) (s : St) :
    (∀ x, x ∈ pcKeys s →
      x ∈ pcKeys (ids.foldl (fun acc rid => wireConnection acc stream rid) s)) ∧
    (∀ rid ∈ ids,
      rid ∈ pcKeys (ids.foldl (fun acc rid => wireConnection acc stream rid) s)) := by
  induction ids generalizing s with
  | nil =>
    exact ⟨fun x hx => hx, fun rid hr => absurd hr (List.not_mem_nil rid)⟩
  | cons a rest ih =>
    simp only [List.foldl_cons]
    constructor
    · intro x hx
      exact (ih (wireConnection s stream a)).1 x (pcKeys_wireConnection_mem s stream a x hx)
    · intro rid hr
      rcases List.mem_cons.mp hr with h1 | h1
      · rw [h1]
        exact (ih (wireConnection s stream a)).1 a (pcKeys_wireConnection_self s stream a)
      · exact (ih (wireConnection s stream a)).2 rid h1

/-- The wiring loop started from a call-opening base state yields an
invariant state. -/
theorem startFold_inv (base : St) (ids : List String) (stream : Stream)
    (hacd : base.activeCallData = some ids)
    (hA : ¬(base.isCameraOn = true ∧ base.isScreenSharing = true))
    (hB : base.isScreenSharing = true → pcKeys base ≠ [] ∧ base.localVideoStream.isSome = true)
    (hls : base.localStream.isSome = true) :
    Inv (ids.foldl (fun acc rid => wireConnection acc stream rid) base) := by
  obtain ⟨w1, w2, w3, w4, w5, w6, w7, w8, w9⟩ := wireFold_proj ids stream base
  have hkeys := wireFold_keys ids stream base
  apply Inv_of_fields
  · intro hx
    rw [w2] at hx
    rw [w8]
    cases hsb : base.isScreenSharing with
    | false => rfl
    | true => exact absurd ⟨hx, hsb⟩ hA
  · intro hx
    rw [w8] at hx
    obtain ⟨k1, k2⟩ := hB hx
    refine ⟨?_, ?_, ?_⟩
    · obtain ⟨y, hy⟩ := List.exists_mem_of_ne_nil _ k1
      intro hc
      have hmem := hkeys.1 y hy
      rw [hc] at hmem
      exact absurd hmem (List.not_mem_nil y)
    · rw [w9]
      exact k2
    · rw [w6, hacd]
      rfl
  · intro x hx
    unfold participants at hx
    rw [w6, hacd] at hx
    exact hkeys.2 x (by simpa using hx)
  · intro _
    rw [w3]
    exact hls
  · intro _
    rw [w6, hacd]
    rfl

/-- `startGroupCall` preserves the invariant. -/
theorem startGroupCall_inv (s : St) (ids : List String) (mic : Option Nat) (h : Inv s) :
    Inv (startGroupCall s ids mic) := by
  unfold startGroupCall
  by_cases hids : ids.isEmpty = true
  · rw [if_pos hids]
    exact h
  · rw [if_neg hids]
    cases hls : s.localStream with
    | some stream =>
      dsimp only
      apply startFold_inv
      · rfl
      · exact h.1
      · intro hx
        exact ⟨(h.2.1 hx).1, (h.2.1 hx).2.1⟩
      · rfl
    | none =>
      cases mic with
      | none => exact h
      | some tid =>
        dsimp only
        apply startFold_inv
        · rfl
        · intro hx
          exact absurd hx.1 (by simp)
        · intro hx
          have hx' : s.isScreenSharing = true := hx
          exact ⟨(h.2.1 hx').1, (h.2.1 hx').2.1⟩
        · rfl

/-- The registry after wiring one connection. -/
theorem wireConnection_pcs (s : St) (stream : Stream) (rid : String) :
    (wireConnection s stream rid).pcs =
      setL s.pcs rid { stream.foldl (fun c t => addTrackRaw c t) Conn.fresh with
                       localDesc := some mkOffer } := by
  unfold wireConnection
  rw [sendSignal_pcs]

/-- `addToCall` preserves the invariant. -/
theorem addToCall_inv (s : St) (rid : String) (mic : Option Nat) (h : Inv s) :
    Inv (addToCall s rid mic) := by
  unfold addToCall
  by_cases hin : s.isInCall = true
  · rw [if_neg (by simp [hin])]
    cases hacd : s.activeCallData with
    | none => exact h
    | some l =>
      dsimp only
      obtain ⟨stream, hstream⟩ := Option.isSome_iff_exists.mp (h.2.2.2.1 hin)
      have hinit : initiateCallConnection s rid mic = wireConnection s stream rid := by
        unfold initiateCallConnection
        rw [hstream]
      rw [hinit]
      have hacd2 : (wireConnection s stream rid).activeCallData = some l := by
        rw [wireConnection_activeCallData, hacd]
      rw [hacd2]
      dsimp only
      apply Inv_of_fields
      · intro hx
        rw [show ({ wireConnection s stream rid with
            activeCallData := some (l ++ [rid]) } : St).isCameraOn =
          (wireConnection s stream rid).isCameraOn from rfl,
          wireConnection_isCameraOn] at hx
        rw [show ({ wireConnection s stream rid with
            activeCallData := some (l ++ [rid]) } : St).isScreenSharing =
          (wireConnection s stream rid).isScreenSharing from rfl,
          wireConnection_isScreenSharing]
        cases hsb : s.isScreenSharing with
        | false => rfl
        | true => exact absurd ⟨hx, hsb⟩ h.1
      · intro hx
        rw [show ({ wireConnection s stream rid with
            activeCallData := some (l ++ [rid]) } : St).isScreenSharing =
          (wireConnection s stream rid).isScreenSharing from rfl,
          wireConnection_isScreenSharing] at hx
        obtain ⟨k1, k2, _⟩ := h.2.1 hx
        refine ⟨?_, ?_, rfl⟩
        · have hmem : rid ∈ pcKeys (wireConnection s stream rid) :=
            pcKeys_wireConnection_self s stream rid
          intro hc
          rw [show pcKeys ({ wireConnection s stream rid with
              activeCallData := some (l ++ [rid]) } : St) =
            pcKeys (wireConnection s stream rid) from rfl] at hc
          rw [hc] at hmem
          exact absurd hmem (List.not_mem_nil rid)
        · rw [show ({ wireConnection s stream rid with
            activeCallData := some (l ++ [rid]) } : St).localVideoStream =
            (wireConnection s stream rid).localVideoStream from rfl,
            wireConnection_localVideoStream]
          exact k2
      · intro x hx
        unfold participants at hx
        dsimp only at hx
        rw [show pcKeys ({ wireConnection s stream rid with
            activeCallData := some (l ++ [rid]) } : St) =
          pcKeys (wireConnection s stream rid) from rfl]
        rcases (show x ∈ l ∨ x = rid by simpa using hx) with h1 | h1
        · apply pcKeys_wireConnection_mem
          apply h.2.2.1
          unfold participants
          rw [hacd]
          simpa using h1
        · rw [h1]
          exact pcKeys_wireConnection_self s stream rid
      · intro _
        rw [show ({ wireConnection s stream rid with
            activeCallData := some (l ++ [rid]) } : St).localStream =
          (wireConnection s stream rid).localStream from rfl,
          wireConnection_localStream, hstream]
        rfl
      · intro _
        rfl
  · rw [if_pos (by simp [Bool.not_eq_true] at hin; simp [hin])]
    exact h

/-- `acceptIncomingCall` preserves the invariant. -/
theorem acceptIncomingCall_inv (s : St) (mic : Option Nat) (h : Inv s) :
    Inv (acceptIncomingCall s mic) := by
  unfold acceptIncomingCall
  cases hic : s.incomingCall with
  | none => exact h
  | some ic =>
    cases mic with
    | none => exact h
    | some tid =>
      dsimp only
      apply Inv_of_fields
      · intro hx
        simp at hx
      · intro hx
        have hx' : s.isScreenSharing = true := by simpa using hx
        obtain ⟨_, k2, _⟩ := h.2.1 hx'
        refine ⟨?_, ?_, rfl⟩
        · simp only [pcKeys]
          rw [sendSignal_pcs]
          exact List.ne_nil_of_mem (mem_keys_setL_self s.pcs ic.callerId _)
        · simpa using k2
      · intro x hx
        have hx' : x = ic.callerId := by simpa [participants] using hx
        rw [hx']
        simp only [pcKeys]
        rw [sendSignal_pcs]
        exact mem_keys_setL_self s.pcs ic.callerId _
      · intro _
        simp
      · intro _
        rfl

/-- `rejectIncomingCall` preserves the invariant. -/
theorem rejectIncomingCall_inv (s : St) (h : Inv s) : Inv (rejectIncomingCall s) := by
  unfold rejectIncomingCall
  cases hic : s.incomingCall with
  | none => exact h
  | some ic =>
    dsimp only
    have hv := sendSignal_sameView s SigType.HANGUP (some ic.callerId) Payload.empty
    obtain ⟨e1, e2, e3, e4, e5, e6, e7⟩ := hv
    obtain ⟨a, b, c, d, e⟩ := h
    refine ⟨?_, ?_, ?_, ?_, ?_⟩
    · intro hx
      exact a ⟨e1 ▸ hx.1, e2 ▸ hx.2⟩
    · intro hx
      obtain ⟨k1, k2, k3⟩ := b (e2 ▸ hx)
      exact ⟨by rw [show pcKeys ({ sendSignal s SigType.HANGUP (some ic.callerId) Payload.empty
          with incomingCall := none } : St) = pcKeys (sendSignal s SigType.HANGUP
          (some ic.callerId) Payload.empty) from rfl, e7]; exact k1,
        by rw [show ({ sendSignal s SigType.HANGUP (some ic.callerId) Payload.empty
          with incomingCall := none } : St).localVideoStream = (sendSignal s SigType.HANGUP
          (some ic.callerId) Payload.empty).localVideoStream from rfl, e6]; exact k2,
        by rw [show ({ sendSignal s SigType.HANGUP (some ic.callerId) Payload.empty
          with incomingCall := none } : St).activeCallData = (sendSignal s SigType.HANGUP
          (some ic.callerId) Payload.empty).activeCallData from rfl, e4]; exact k3⟩
    · intro x hx
      unfold participants at hx
      dsimp only at hx
      rw [e4] at hx
      rw [show pcKeys ({ sendSignal s SigType.HANGUP (some ic.callerId) Payload.empty
        with incomingCall := none } : St) = pcKeys (sendSignal s SigType.HANGUP
        (some ic.callerId) Payload.empty) from rfl, e7]
      exact c x hx
    · intro hx
      dsimp only at hx
      rw [e3] at hx
      rw [show ({ sendSignal s SigType.HANGUP (some ic.callerId) Payload.empty
        with incomingCall := none } : St).localStream = (sendSignal s SigType.HANGUP
        (some ic.callerId) Payload.empty).localStream from rfl, e5]
      exact d hx
    · intro hx
      rw [show pcKeys ({ sendSignal s SigType.HANGUP (some ic.callerId) Payload.empty
        with incomingCall := none } : St) = pcKeys (sendSignal s SigType.HANGUP
        (some ic.callerId) Payload.empty) from rfl, e7] at hx
      rw [show ({ sendSignal s SigType.HANGUP (some ic.callerId) Payload.empty
        with incomingCall := none } : St).activeCallData = (sendSignal s SigType.HANGUP
        (some ic.callerId) Payload.empty).activeCallData from rfl, e4]
      exact e hx

/-- `endCall` always lands in an invariant state (full teardown). -/
theorem endCall_inv (s : St) : Inv (endCall s) := by
  unfold endCall
  exact cleanupCall_inv _

/-- A list with false `isEmpty` is not nil. -/
theorem ne_nil_of_isEmpty_ne {α : Type} (l : List α) (h : ¬l.isEmpty = true) : l ≠ [] := by
  intro hc
  rw [hc] at h
  exact h rfl

/-- `handleRemoteHangup` preserves the invariant. -/
theorem handleRemoteHangup_inv (s : St) (x : String) (h : Inv s) :
    Inv (handleRemoteHangup s x) := by
  unfold handleRemoteHangup
  cases hpc : lookupL s.pcs x with
  | none =>
    dsimp only
    cases heq : s.activeCallData with
    | none =>
      have hA : ∀ t : St, t.isCameraOn = s.isCameraOn → t.isScreenSharing = s.isScreenSharing →
          True := fun _ _ _ => trivial
      apply Inv_of_fields
      · intro hx
        cases hsb : s.isScreenSharing with
        | false => rfl
        | true => exact absurd ⟨hx, hsb⟩ h.1
      · intro hx
        have hsome := (h.2.1 hx).2.2
        rw [heq] at hsome
        simp at hsome
      · intro z hz
        have hz' : z ∈ ([] : List String) := hz
        simp at hz'
      · exact h.2.2.2.1
      · intro hne
        have hsome := h.2.2.2.2 hne
        rw [heq] at hsome
        simp at hsome
    | some l =>
      dsimp only
      by_cases hif : (l.filter (fun id => id != x)).isEmpty = true
      · rw [if_pos hif]
        exact cleanupCall_inv _
      · rw [if_neg hif]
        apply Inv_of_fields
        · intro hx
          cases hsb : s.isScreenSharing with
          | false => rfl
          | true => exact absurd ⟨hx, hsb⟩ h.1
        · intro hx
          obtain ⟨k1, k2, k3⟩ := h.2.1 hx
          exact ⟨k1, k2, rfl⟩
        · intro z hz
          have hz' : z ∈ l.filter (fun id => id != x) := hz
          apply h.2.2.1
          unfold participants
          rw [heq]
          simpa using (List.mem_filter.mp hz').1
        · exact h.2.2.2.1
        · intro _
          rfl
  | some pc =>
    dsimp only
    cases heq : s.activeCallData with
    | none =>
      apply Inv_of_fields
      · intro hx
        cases hsb : s.isScreenSharing with
        | false => rfl
        | true => exact absurd ⟨hx, hsb⟩ h.1
      · intro hx
        have hsome := (h.2.1 hx).2.2
        rw [heq] at hsome
        simp at hsome
      · intro z hz
        have hz' : z ∈ ([] : List String) := hz
        simp at hz'
      · exact h.2.2.2.1
      · intro hne
        have hkeys : pcKeys s ≠ [] := by
          intro hc
          apply hne
          show (eraseL s.pcs x).map (fun p => p.1) = []
          rw [keys_eraseL]
          rw [show s.pcs.map (fun p => p.1) = pcKeys s from rfl, hc]
          rfl
        have hsome := h.2.2.2.2 hkeys
        rw [heq] at hsome
        simp at hsome
    | some l =>
      dsimp only
      by_cases hif : (l.filter (fun id => id != x)).isEmpty = true
      · rw [if_pos hif]
        exact cleanupCall_inv _
      · rw [if_neg hif]
        have hne' : l.filter (fun id => id != x) ≠ [] := ne_nil_of_isEmpty_ne _ hif
        apply Inv_of_fields
        · intro hx
          cases hsb : s.isScreenSharing with
          | false => rfl
          | true => exact absurd ⟨hx, hsb⟩ h.1
        · intro hx
          obtain ⟨k1, k2, k3⟩ := h.2.1 hx
          obtain ⟨y, hy⟩ := List.exists_mem_of_ne_nil _ hne'
          obtain ⟨hyl, hyx⟩ := List.mem_filter.mp hy
          refine ⟨?_, k2, rfl⟩
          have hymem : y ∈ pcKeys s := by
            apply h.2.2.1
            unfold participants
            rw [heq]
            simpa using hyl
          have : y ∈ (eraseL s.pcs x).map (fun p => p.1) := by
            rw [keys_eraseL]
            exact List.mem_filter.mpr ⟨hymem, hyx⟩
          exact List.ne_nil_of_mem this
        · intro z hz
          have hz' : z ∈ l.filter (fun id => id != x) := hz
          obtain ⟨hzl, hzx⟩ := List.mem_filter.mp hz'
          have hzmem : z ∈ pcKeys s := by
            apply h.2.2.1
            unfold participants
            rw [heq]
            simpa using hzl
          show z ∈ (eraseL s.pcs x).map (fun p => p.1)
          rw [keys_eraseL]
          exact List.mem_filter.mpr ⟨hzmem, hzx⟩
        · exact h.2.2.2.1
        · intro _
          rfl

/-- The missed-call check leaves the invariant's view unchanged. -/
theorem missedCallCheck_sameView (s : St) (x : String) :
    SameView s (missedCallCheck s x) := by
  unfold missedCallCheck
  cases hic : s.incomingCall with
  | none => exact sameView_rfl s
  | some ic =>
    dsimp only
    by_cases hb : (ic.callerId == x) = true
    · rw [if_pos hb]
      exact ⟨rfl, rfl, rfl, rfl, rfl, rfl, rfl⟩
    · rw [if_neg hb]
      exact sameView_rfl s

/-- The signal handler preserves the invariant. -/
theorem handleSignal_inv (s : St) (sig : SigMsg) (h : Inv s) : Inv (handleSignal s sig) := by
  unfold handleSignal
  split
  · exact h
  split
  · exact h
  cases hty : sig.type with
  | USER_ONLINE => exact h
  | SCREEN_STARTED => exact h
  | CHAT_MSG => exact h
  | OFFER =>
    cases hpl : sig.payload with
    | sdp d =>
      dsimp only
      split
      · exact h
      split
      · cases hlk : lookupL s.pcs sig.senderId with
        | none => exact h
        | some pc =>
          apply Inv_sameView (sendSignal_sameView _ _ _ _)
          exact Inv_sameView (updateConn_sameView _ _ _) h
      · exact h
    | candidate c => exact h
    | chat m => exact h
    | screenStopped b => exact h
    | empty => exact h
  | ANSWER =>
    cases hpl : sig.payload with
    | sdp d =>
      cases hlk : lookupL s.pcs sig.senderId with
      | none => exact h
      | some pc =>
        dsimp only
        rw [updateConn_activeCallData]
        cases heq : s.activeCallData with
        | none => exact Inv_sameView (updateConn_sameView _ _ _) h
        | some l =>
          dsimp only
          by_cases hmem : l.contains sig.senderId = true
          · rw [if_pos hmem]
            exact Inv_sameView (updateConn_sameView _ _ _) h
          · rw [if_neg hmem]
            apply Inv_of_fields
            · intro hx
              cases hsb : s.isScreenSharing with
              | false => exact hsb
              | true => exact absurd ⟨hx, hsb⟩ h.1
            · intro hx
              obtain ⟨k1, k2, k3⟩ := h.2.1 hx
              refine ⟨?_, k2, rfl⟩
              show pcKeys (updateConn s sig.senderId
                (fun _ => { pc with remoteDesc := some d })) ≠ []
              rw [pcKeys_updateConn]
              exact k1
            · intro z hz
              have hz' : z ∈ l ++ [sig.senderId] := hz
              show z ∈ pcKeys (updateConn s sig.senderId
                (fun _ => { pc with remoteDesc := some d }))
              rw [pcKeys_updateConn]
              rcases (by simpa using hz' : z ∈ l ∨ z = sig.senderId) with h1 | h1
              · apply h.2.2.1
                unfold participants
                rw [heq]
                simpa using h1
              · rw [h1]
                exact mem_keys_of_lookupL s.pcs sig.senderId pc hlk
            · exact h.2.2.2.1
            · intro _
              rfl
    | candidate c => exact h
    | chat m => exact h
    | screenStopped b => exact h
    | empty => exact h
  | CANDIDATE =>
    cases hpl : sig.payload with
    | candidate c =>
      cases c with
      | none => exact h
      | some cv =>
        cases hlk : lookupL s.pcs sig.senderId with
        | none => exact h
        | some pc => exact Inv_sameView (updateConn_sameView _ _ _) h
    | sdp d => exact h
    | chat m => exact h
    | screenStopped b => exact h
    | empty => exact h
  | HANGUP =>
    exact handleRemoteHangup_inv _ _ (Inv_sameView (missedCallCheck_sameView s sig.senderId) h)
  | CHAT_MESSAGE =>
    cases hpl : sig.payload with
    | chat m =>
      dsimp only
      by_cases hdup : s.chatMessages.any (fun c => c.id == m.id) = true
      · rw [if_pos hdup]
        exact h
      · rw [if_neg hdup]
        exact h
    | sdp d => exact h
    | candidate c => exact h
    | screenStopped b => exact h
    | empty => exact h
  | SCREEN_STOPPED =>
    cases hpl : sig.payload with
    | screenStopped hcf =>
      cases hcf with
      | true => exact h
      | false =>
        cases hlk : lookupL s.remoteStreams sig.senderId with
        | none => exact h
        | some existing => exact h
    | sdp d => exact h
    | candidate c => exact h
    | chat m => exact h
    | empty => exact h

/-- Installing a camera track turns the camera flag on. -/
theorem installVideoTrack_isCameraOn (t : St) (tid : Nat) (stale : Option Stream) :
    (installVideoTrack t tid stale).isCameraOn = true := by
  unfold installVideoTrack
  dsimp only
  rw [renegotiate_isCameraOn, composeLocalStream_isCameraOn]

/-- Installing a camera track leaves the screen-share flag unchanged. -/
theorem installVideoTrack_isScreenSharing (t : St) (tid : Nat) (stale : Option Stream) :
    (installVideoTrack t tid stale).isScreenSharing = t.isScreenSharing := by
  unfold installVideoTrack
  dsimp only
  rw [renegotiate_isScreenSharing, composeLocalStream_isScreenSharing]

/-- On an invariant state that is screen sharing, `toggleCamera` with a
successful capture first stops the screen share and then raises the
camera flag. -/
theorem toggleCamera_stops_share (s : St) (h : Inv s) (tid : Nat) (ssc : Option Nat)
    (hshare : s.isScreenSharing = true) :
    (toggleCamera s (some tid) ssc).isScreenSharing = false ∧
    (toggleCamera s (some tid) ssc).isCameraOn = true := by
  have hcam : s.isCameraOn = false := by
    cases hc : s.isCameraOn with
    | false => rfl
    | true => exact absurd ⟨hc, hshare⟩ h.1
  obtain ⟨hk, hv, hacd⟩ := h.2.1 hshare
  obtain ⟨vs, hvs⟩ := Option.isSome_iff_exists.mp hv
  have hpcs : s.pcs ≠ [] := by
    intro hc
    apply hk
    unfold pcKeys
    rw [hc]
    rfl
  unfold toggleCamera
  rw [if_neg (by simp [hcam])]
  dsimp only
  rw [if_pos hshare]
  constructor
  · rw [installVideoTrack_isScreenSharing]
    exact (stopScreenSharing_spec
      { s with trackHeap := heapAdd s.trackHeap tid ⟨TrackKind.video, true, true, false⟩ }
      ssc vs hvs hpcs).1
  · rw [installVideoTrack_isCameraOn]

/-- The invariant holds in the initial state. -/
theorem Inv_initSt (me : String) : Inv (initSt me) := by
  unfold Inv initSt pcKeys participants
  simp

/-- Every operation preserves the invariant. -/
theorem applyOp_inv (s : St) (op : Op) (h : Inv s) : Inv (applyOp s op) := by
  cases op with
  | tMic mic => exact toggleMic_inv s mic h
  | tCam cam ssc => exact toggleCamera_inv s cam ssc h
  | tShare scr ssc => exact toggleScreenShare_inv s scr ssc h
  | stopShare cam => exact stopScreenSharing_inv s cam h
  | startGroup ids mic => exact startGroupCall_inv s ids mic h
  | start1 rid mic => exact startGroupCall_inv s [rid] mic h
  | addTo rid mic => exact addToCall_inv s rid mic h
  | accept mic => exact acceptIncomingCall_inv s mic h
  | reject => exact rejectIncomingCall_inv s h
  | hangup => exact endCall_inv s
  | recv sig => exact handleSignal_inv s sig h

/-- Every reachable state satisfies the invariant. -/
theorem runOps_inv (me : String) (ops : List Op) : Inv (runOps me ops) := by
  unfold runOps
  have hfold : ∀ (l : List Op) (t : St), Inv t → Inv (l.foldl applyOp t) := by
    intro l
    induction l with
    | nil => intro t ht; exact ht
    | cons a as ih => intro t ht; exact ih _ (applyOp_inv t a ht)
  exact hfold ops (initSt me) (Inv_initSt me)

/-- C3: in every state reachable by any sequence of the coordinator's
operations, `isCameraOn` and `isScreenSharing` are never simultaneously
true; in particular `toggleCamera` invoked while screen sharing (with a
successful camera capture) stops the screen share before the camera
flag becomes true. -/
theorem camera_screen_mutual_exclusion (me : String) (ops : List Op)
    (tid : Nat) (ssc : Option Nat) :
    (((runOps me ops).isCameraOn && (runOps me ops).isScreenSharing) = false) ∧
    ((runOps me ops).isScreenSharing = true →
      (toggleCamera (runOps me ops) (some tid) ssc).isScreenSharing = false ∧
      (toggleCamera (runOps me ops) (some tid) ssc).isCameraOn = true) := by
  have hinv := runOps_inv me ops
  constructor
  · cases hc : (runOps me ops).isCameraOn with
    | false => rfl
    | true =>
      cases hs : (runOps me ops).isScreenSharing with
      | false => rfl
      | true => exact absurd ⟨hc, hs⟩ hinv.1
  · intro hshare
    exact toggleCamera_stops_share (runOps me ops) hinv tid ssc hshare

/-- Concrete instance of C3: after starting a group call with `u2` and
then sharing the screen, the state is screen sharing, and toggling the
camera on ends the share and raises the camera flag. -/
theorem camera_screen_mutual_exclusion_witness :
    (runOps "u1" [Op.startGroup ["u2"] (some 1), Op.tShare (some 2) none]).isScreenSharing
      = true ∧
    ((toggleCamera (runOps "u1" [Op.startGroup ["u2"] (some 1), Op.tShare (some 2) none])
        (some 3) none).isScreenSharing = false ∧
     (toggleCamera (runOps "u1" [Op.startGroup ["u2"] (some 1), Op.tShare (some 2) none])
        (some 3) none).isCameraOn = true) :=
  ⟨by decide,
   (camera_screen_mutual_exclusion "u1" [Op.startGroup ["u2"] (some 1), Op.tShare (some 2) none]
      3 none).2 (by decide)⟩

end SetuWorld
